import Mathlib

/-!
# ImageToPdf: a shallow embedding of `public/js/logic.js`

The in-memory image collection, the reorder handler, the upload validation,
the deletion and editing of records, the settings, the page layout and the
document assembly loop of the browser program are translated into Lean
functions, and the properties of the design document are stated and proved
about these functions.

JavaScript numbers are modelled by `ℚ` (exact arithmetic) where the source
divides, and by `ℤ`/`ℕ` where the source only handles integers.  An array is a
`List`; an array entry that is `undefined` is `none`.
-/

namespace ImageToPdf

/-! ## Configuration (`CONFIG`) -/

/-- `CONFIG.maxFileSize`: ten mebibytes. -/
def CONFIG.maxFileSize : Nat := 10 * 1024 * 1024

/-- `CONFIG.maxImages`. -/
def CONFIG.maxImages : Nat := 50

/-- `CONFIG.supportedFormats`. -/
def CONFIG.supportedFormats : List String :=
  ["image/jpeg", "image/png", "image/gif", "image/webp"]

/-- The settings object (`state.settings`). -/
structure Settings where
  pageSize : String
  orientation : String
  imageQuality : ℚ
  margin : ℚ
  imagesPerPage : Int
  filename : String
  deriving DecidableEq

/-- `CONFIG.defaultSettings`. -/
def CONFIG.defaultSettings : Settings where
  pageSize := "a4"
  orientation := "portrait"
  imageQuality := 92 / 100
  margin := 20
  imagesPerPage := 1
  filename := "generated"

/-! ## Image records and the program state -/

/-- The `imageData` object that `processFiles` builds for one decoded file. -/
structure Record where
  src : String
  originalSrc : String
  thumbnail : String
  name : String
  width : Nat
  height : Nat
  rotation : Int
  flipH : Bool
  flipV : Bool
  deriving DecidableEq, Repr

/-- The global `state` object.  An entry of `uploadedImages` is `some r` for a
record and `none` for the JavaScript value `undefined`. -/
structure State where
  settings : Settings
  uploadedImages : List (Option Record)
  currentEditIndex : Int
  currentRotation : Int
  currentFlipH : Bool
  currentFlipV : Bool
  operationCancelled : Bool

/-- The initial value of `state`. -/
def State.initial : State where
  settings := CONFIG.defaultSettings
  uploadedImages := []
  currentEditIndex := -1
  currentRotation := 0
  currentFlipH := false
  currentFlipV := false
  operationCancelled := false

/-! ## `Array.prototype.splice` and the Sortable `onEnd` handler -/

/-- `arr.splice(start, deleteCount, ...items)` for an integer `start`: the pair
of the removed elements (the return value) and the array afterwards.  A
negative `start` counts from the end, and both `start` and `deleteCount` are
clamped to the array. -/
def splice {α : Type} (arr : List α) (start : Int) (deleteCount : Nat) (items : List α) :
    List α × List α :=
  let len : Int := arr.length
  let actualStart : Nat :=
    if start < 0 then (max (len + start) 0).toNat else (min start len).toNat
  let actualDeleteCount : Nat := min deleteCount (arr.length - actualStart)
  ((arr.drop actualStart).take actualDeleteCount,
    arr.take actualStart ++ items ++ arr.drop (actualStart + actualDeleteCount))

/-- The `onEnd` callback given to `Sortable` in `initializeSortable`:
`movedItem = uploadedImages.splice(oldIndex, 1)[0]` followed by
`uploadedImages.splice(newIndex, 0, movedItem)`.  Indexing the empty array of
removed elements gives `undefined`.  The preview refresh and the notification
touch only the page, not `state`. -/
def onEnd (st : State) (oldIndex newIndex : Int) : State :=
  let removed := splice st.uploadedImages oldIndex 1 []
  let movedItem : Option Record := (removed.1[0]?).join
  { st with uploadedImages := (splice removed.2 newIndex 0 [movedItem]).2 }

/-! ## Upload (`sanitizeDataUrl`, `processFiles`) -/

/-- `sanitizeDataUrl(url)` for a string: everything from the first `?` on is
removed. -/
def sanitizeDataUrl (url : String) : String :=
  if url.data.contains '?' then String.mk (url.data.takeWhile (fun c => c != '?')) else url

/-- What the browser makes of a file that it reads and decodes: the data URL
given by the `FileReader`, the thumbnail drawn on the canvas and the pixel
size of the decoded `Image`. -/
structure Decoded where
  dataUrl : String
  thumbnail : String
  width : Nat
  height : Nat
  deriving DecidableEq, Repr

/-- A `File` of an upload batch.  `decoded` is the environment's answer for
this file: `none` when `reader.onerror` fires or the image never loads, so
that the `img.onload` callback of `processFiles` does not run. -/
structure File where
  name : String
  type : String
  size : Nat
  decoded : Option Decoded
  deriving DecidableEq, Repr

/-- What the synchronous part of `processFiles` does: the files handed to
`reader.readAsDataURL` in order, the two counters and the notifications. -/
structure Upload where
  started : List File
  validFiles : Nat
  invalidFiles : Nat
  notifications : List (String × String)
  deriving DecidableEq, Repr

/-- The body of `files.forEach(file => ...)` in `processFiles`. -/
def processFiles.each (acc : Upload) (file : File) : Upload :=
  if ¬ CONFIG.supportedFormats.contains file.type then
    { acc with invalidFiles := acc.invalidFiles + 1 }
  else if file.size > CONFIG.maxFileSize then
    { acc with
      notifications := acc.notifications ++ [(file.name ++ " exceeds 10MB limit", "error")]
      invalidFiles := acc.invalidFiles + 1 }
  else
    { acc with validFiles := acc.validFiles + 1, started := acc.started ++ [file] }

/-- `processFiles(files)`, the synchronous part: the count check on the whole
batch, then the per-file validation.  It does not assign to `state`; the
records are pushed later by the `img.onload` callbacks (`imageLoaded`). -/
def processFiles (st : State) (files : List File) : Upload :=
  if st.uploadedImages.length + files.length > CONFIG.maxImages then
    { started := [], validFiles := 0, invalidFiles := 0,
      notifications := [("Maximum " ++ toString CONFIG.maxImages ++ " images allowed", "error")] }
  else
    let u := files.foldl processFiles.each
      { started := [], validFiles := 0, invalidFiles := 0, notifications := [] }
    let n1 := if u.validFiles > 0 then
        [(toString u.validFiles ++ " image" ++ (if u.validFiles > 1 then "s" else "") ++
          " uploaded successfully", "success")]
      else []
    let n2 := if u.invalidFiles > 0 then
        [(toString u.invalidFiles ++ " file" ++ (if u.invalidFiles > 1 then "s" else "") ++
          " skipped", "warning")]
      else []
    { u with notifications := u.notifications ++ n1 ++ n2 }

/-- The record that `img.onload` builds for a decoded file. -/
def imageData (file : File) (d : Decoded) : Record where
  src := sanitizeDataUrl d.dataUrl
  originalSrc := sanitizeDataUrl d.dataUrl
  thumbnail := d.thumbnail
  name := file.name
  width := d.width
  height := d.height
  rotation := 0
  flipH := false
  flipV := false

/-- The completion of one started file: `reader.onload` then `img.onload`
push the new record at the end of `state.uploadedImages`; a file that cannot
be read or decoded changes nothing. -/
def imageLoaded (st : State) (file : File) : State :=
  match file.decoded with
  | none => st
  | some d => { st with uploadedImages := st.uploadedImages ++ [some (imageData file d)] }

/-- The state after the callbacks of the started files have run, in the order
`completed` in which the browser finished them. -/
def uploadsCompleted (st : State) (completed : List File) : State :=
  completed.foldl imageLoaded st

/-! ## Page layout (`addImageToPDF`, `processImagesForPage`) -/

/-- The rectangle `(xOffset, yOffset, scaledWidth, scaledHeight)` passed to
`pdf.addImage`. -/
structure Rect where
  x : ℚ
  y : ℚ
  width : ℚ
  height : ℚ
  deriving DecidableEq

/-- The arithmetic of the `img.onload` callback of `addImageToPDF`, for an
image of pixel size `imgWidth × imgHeight` and the slot
`(x, y, maxWidth, maxHeight)`. -/
def addImageToPDF.rect (imgWidth imgHeight x y maxWidth maxHeight : ℚ) : Rect :=
  let scaleFactor := min (min (maxWidth / imgWidth) (maxHeight / imgHeight)) 1
  let scaledWidth := max 1 (imgWidth * scaleFactor)
  let scaledHeight := max 1 (imgHeight * scaleFactor)
  let xOffset := x + (maxWidth - scaledWidth) / 2
  let yOffset := y + (maxHeight - scaledHeight) / 2
  { x := xOffset, y := yOffset, width := scaledWidth, height := scaledHeight }

/-- One `pdf.addImage` call: the record whose picture is embedded and where. -/
structure Placed where
  image : Record
  rect : Rect
  deriving DecidableEq

/-- The `jsPDF` document under construction: the pages already left behind by
`addPage` and the current page, each the list of its embedded images. -/
structure Pdf where
  finished : List (List Placed)
  current : List Placed
  deriving DecidableEq

/-- `new jsPDF(...)`: a document with one empty page. -/
def Pdf.new : Pdf := { finished := [], current := [] }

/-- `pdf.addPage()`. -/
def Pdf.addPage (pdf : Pdf) : Pdf :=
  { finished := pdf.finished ++ [pdf.current], current := [] }

/-- `pdf.addImage(...)` on the current page. -/
def Pdf.addImage (pdf : Pdf) (p : Placed) : Pdf :=
  { pdf with current := pdf.current ++ [p] }

/-- All pages of the document, in order. -/
def Pdf.pages (pdf : Pdf) : List (List Placed) := pdf.finished ++ [pdf.current]

/-- The table `pageSizes` of `generatePDF`, in points. -/
def pageSizes : String → Option (ℚ × ℚ)
  | "a4" => some (59528 / 100, 84189 / 100)
  | "letter" => some (612, 792)
  | "legal" => some (612, 1008)
  | "a3" => some (84189 / 100, 119055 / 100)
  | _ => none

/-- The calls of `generatePDF` into the jsPDF library, which is not part of
the program: for the arguments `orientation` and `format` of
`new jsPDF(orientation, 'pt', format)`, each field tells whether the call
returns (`true`) or throws (`false`): the constructor itself,
`pdf.addPage()`, `pdf.addImage(...)` and `pdf.output('blob')` on the document
so created.  The default is a library that knows the page sizes of the table
`pageSizes` and no other: a document of another format is created, but
`pdf.addImage` and `pdf.output` throw on it. -/
structure JsPDF where
  create : String → String → Bool := fun _ _ => true
  addPage : String → String → Bool := fun _ _ => true
  addImage : String → String → Bool := fun _ format => (pageSizes format).isSome
  output : String → String → Bool := fun _ format => (pageSizes format).isSome

/-- The library handles the document for `orientation` and `format`: none of
its four calls throws. -/
def JsPDF.handles (lib : JsPDF) (orientation format : String) : Prop :=
  lib.create orientation format = true ∧ lib.addPage orientation format = true ∧
  lib.addImage orientation format = true ∧ lib.output orientation format = true

/-- The environment of one run of `generatePDF`: `cancelled p` is the value of
`state.operationCancelled` read by the check that follows `p` completed pages
(it is set by `cancelOperation` while the run is suspended), `decode src`
is the pixel size of the `Image` loaded from the data URL `src`, or `none`
when `img.onerror` fires, and `jsPDF` is the library. -/
structure Env where
  cancelled : Nat → Bool
  decode : String → Option (Nat × Nat)
  jsPDF : JsPDF := {}

/-- `addImageToPDF(pdf, imageData, x, y, maxWidth, maxHeight)`: the promise is
rejected when `imageData` is `undefined` (reading `.src` throws) or when the
image does not load; otherwise the image is embedded at the computed
rectangle.  The canvas and `toBlob` are taken to succeed, and the document is
taken to accept the image; a document on which `pdf.addImage` throws is dealt
with in `generatePDF.pageLoop`. -/
def addImageToPDF (env : Env) (pdf : Pdf) (imageData : Option Record)
    (x y maxWidth maxHeight : ℚ) : Except String Pdf :=
  match imageData with
  | none => .error "TypeError"
  | some r =>
    match env.decode (sanitizeDataUrl r.src) with
    | none => .error "image load error"
    | some (imgWidth, imgHeight) =>
      .ok (pdf.addImage
        { image := r, rect := addImageToPDF.rect imgWidth imgHeight x y maxWidth maxHeight })

/-- The loop `for (let i = 0; i < images.length; i++) { await body(i, images[i]) }`,
started at index `i` with the remaining images. -/
def processImagesForPage.loop (body : Nat → Option Record → Pdf → Except String Pdf) :
    List (Option Record) → Nat → Pdf → Except String Pdf
  | [], _, pdf => .ok pdf
  | image :: rest, i, pdf =>
    match body i image pdf with
    | .error e => .error e
    | .ok pdf1 => processImagesForPage.loop body rest (i + 1) pdf1

/-- `processImagesForPage(pdf, images, pageWidth, pageHeight, margin, imagesPerPage)`. -/
def processImagesForPage (env : Env) (pdf : Pdf) (images : List (Option Record))
    (pageWidth pageHeight margin : ℚ) (imagesPerPage : Int) : Except String Pdf :=
  let availableWidth := pageWidth - (2 * margin)
  let availableHeight := pageHeight - (2 * margin)
  if imagesPerPage = 1 then
    addImageToPDF env pdf (images[0]?).join margin margin availableWidth availableHeight
  else if imagesPerPage = 2 then
    let imgHeight := (availableHeight / 2) - 5
    processImagesForPage.loop (fun i image pdf1 =>
      let yPos := margin + ((i : ℚ) * (imgHeight + 10))
      addImageToPDF env pdf1 image margin yPos availableWidth imgHeight) images 0 pdf
  else if imagesPerPage = 4 then
    let imgWidth := (availableWidth / 2) - 5
    let imgHeight := (availableHeight / 2) - 5
    processImagesForPage.loop (fun i image pdf1 =>
      let col := i % 2
      let row := i / 2
      let xPos := margin + ((col : ℚ) * (imgWidth + 10))
      let yPos := margin + ((row : ℚ) * (imgHeight + 10))
      addImageToPDF env pdf1 image xPos yPos imgWidth imgHeight) images 0 pdf
  else
    .ok pdf

/-! ## Document assembly (`generatePDF`) -/

/-- `Math.round`: the nearest integer, halves rounded up. -/
def jsRound (x : ℚ) : ℤ := ⌊x + 1 / 2⌋

/-- `arr.slice(start, end)` for integer arguments; negative arguments count
from the end of the array. -/
def slice {α : Type} (arr : List α) (start stop : Int) : List α :=
  let len : Int := arr.length
  let k : Int := if start < 0 then max (len + start) 0 else min start len
  let final : Int := if stop < 0 then max (len + stop) 0 else min stop len
  (arr.drop k.toNat).take (final - k).toNat

/-- The pair `(pageWidth, pageHeight)` that `generatePDF` derives from the
settings: an unknown page size falls back to `a4`, and every orientation
other than `portrait` swaps the two sides. -/
def generatePDF.pageGeometry (settings : Settings) : ℚ × ℚ :=
  let chosen := (pageSizes settings.pageSize).getD (59528 / 100, 84189 / 100)
  let pageWidth := if settings.orientation = "portrait" then chosen.1 else chosen.2
  let pageHeight := if settings.orientation = "portrait" then chosen.2 else chosen.1
  (pageWidth, pageHeight)

/-- What a run of `generatePDF` does to the page and to the user, in order. -/
inductive Event where
  | showInlineLoader
  | hideInlineLoader
  | showLoader (title sub : String) (pct : Int)
  | updateLoader (pct : Int) (title sub : String)
  | hideLoader
  | notification (message type : String)
  | output (pdf : Pdf)
  | preview
  | download (filename : String)
  deriving DecidableEq

/-- The result of the page loop: the document or the thrown error, the number
of completed pages and the events of the loop. -/
structure Loop where
  result : Except String Pdf
  pageCount : Nat
  trace : List Event

/-- The `updateLoader` call of the loop iteration with loop variable `i` and
counter `pageCount`: the percentage is `Math.round((i / length) * 90)`. -/
def generatePDF.progress (st : State) (i : Int) (pageCount : Nat) : Event :=
  let imagesPerPage := st.settings.imagesPerPage
  let progress := jsRound (((i : ℚ) / (st.uploadedImages.length : ℚ)) * 90)
  Event.updateLoader progress ("Processing page " ++ toString (pageCount + 1))
    ("Images " ++ toString (i + 1) ++ "-" ++
      toString (min (i + imagesPerPage) (st.uploadedImages.length : Int)) ++ " of " ++
      toString st.uploadedImages.length)

/-- The loop `for (let i = 0; i < uploadedImages.length; i += imagesPerPage)`
of `generatePDF`, from the loop variable `i`, the counter `pageCount` and the
document `pdf`, which was created with the orientation and the page size of
the settings.  Every iteration uses one unit of `fuel`; `none` means that
the loop is still running when the fuel is used up.  `processImagesForPage` is
computed for a document that accepts images; when it has embedded an image
(the page holds more images than before) and `pdf.addImage` throws on the
document of the run, the page has failed with the first such call. -/
def generatePDF.pageLoop (env : Env) (st : State) (pageWidth pageHeight : ℚ) :
    Nat → Int → Nat → Pdf → Option Loop
  | 0, i, pageCount, pdf =>
    if i < st.uploadedImages.length then none
    else some { result := .ok pdf, pageCount := pageCount, trace := [] }
  | fuel + 1, i, pageCount, pdf =>
    if i < st.uploadedImages.length then
      if env.cancelled pageCount then
        some { result := .error "Operation cancelled", pageCount := pageCount, trace := [] }
      else
        let imagesPerPage := st.settings.imagesPerPage
        let imagesInThisPage := slice st.uploadedImages i (i + imagesPerPage)
        let ev := generatePDF.progress st i pageCount
        if pageCount > 0 ∧
            env.jsPDF.addPage st.settings.orientation st.settings.pageSize = false then
          some { result := .error "jsPDF addPage", pageCount := pageCount, trace := [ev] }
        else
          let pdf1 := if pageCount > 0 then pdf.addPage else pdf
          match processImagesForPage env pdf1 imagesInThisPage pageWidth pageHeight
              st.settings.margin imagesPerPage with
          | .error e => some { result := .error e, pageCount := pageCount, trace := [ev] }
          | .ok pdf2 =>
            if pdf1.current.length < pdf2.current.length ∧
                env.jsPDF.addImage st.settings.orientation st.settings.pageSize = false then
              some { result := .error "jsPDF addImage", pageCount := pageCount, trace := [ev] }
            else
              (generatePDF.pageLoop env st pageWidth pageHeight fuel (i + imagesPerPage)
                  (pageCount + 1) pdf2).map
                (fun r => { r with trace := ev :: r.trace })
    else some { result := .ok pdf, pageCount := pageCount, trace := [] }

/-- A finished run of `generatePDF`: the state afterwards and the events. -/
structure Run where
  state : State
  trace : List Event

/-- `generatePDF()` in the environment `env`, with `fuel` iterations allowed
to the page loop (`none`: the loop does not finish within them).  The
document is `new jsPDF(settings.orientation, 'pt', settings.pageSize)`; an
exception of the constructor or of `pdf.output` is caught like every other
error.  The last three events of a completed run are those of the 800 ms
timer. -/
def generatePDF (env : Env) (st : State) (fuel : Nat) : Option Run :=
  if st.uploadedImages.length = 0 then
    some { state := st, trace := [.notification "Please upload at least one image" "error"] }
  else
    let st1 := { st with operationCancelled := false }
    let geometry := generatePDF.pageGeometry st1.settings
    if env.jsPDF.create st1.settings.orientation st1.settings.pageSize = false then
      some {
        state := st1
        trace := [Event.showInlineLoader,
          Event.showLoader "Starting PDF generation" "Initializing..." 3,
          .hideLoader, .hideInlineLoader, .notification "Error generating PDF" "error"] }
    else
    match generatePDF.pageLoop env st1 geometry.1 geometry.2 fuel 0 0 Pdf.new with
    | none => none
    | some loop =>
      let start := [Event.showInlineLoader,
        Event.showLoader "Starting PDF generation" "Initializing..." 3] ++ loop.trace
      match loop.result with
      | .error e =>
        some {
          state := { st1 with operationCancelled := decide (e = "Operation cancelled") }
          trace := start ++ [.hideLoader, .hideInlineLoader,
            if e = "Operation cancelled" then .notification "Operation cancelled" "info"
            else .notification "Error generating PDF" "error"] }
      | .ok pdf =>
        if env.cancelled loop.pageCount then
          some {
            state := { st1 with operationCancelled := true }
            trace := start ++ [.hideLoader, .hideInlineLoader] }
        else if env.jsPDF.output st1.settings.orientation st1.settings.pageSize = false then
          some {
            state := st1
            trace := start ++
              [.updateLoader 92 "Finalizing PDF" "Building output...",
               .hideLoader, .hideInlineLoader,
               .notification "Error generating PDF" "error"] }
        else
          some {
            state := st1
            trace := start ++
              [.updateLoader 92 "Finalizing PDF" "Building output...",
               .output pdf,
               .updateLoader 95 "Preparing preview" "Opening preview...",
               .preview,
               .updateLoader 98 "Downloading" "Saving file...",
               .download (st1.settings.filename ++ ".pdf"),
               .updateLoader 100 "Complete" "PDF generated successfully",
               .hideLoader, .hideInlineLoader,
               .notification "PDF generated successfully!" "success"] }

/-- The events that hand the document over: the output blob, the preview and
the download. -/
def Event.emits : Event → Bool
  | .output _ => true
  | .preview => true
  | .download _ => true
  | _ => false

/-- The percentages passed to `showLoader` and `updateLoader`, in call order. -/
def percentages : List Event → List Int
  | [] => []
  | .showLoader _ _ pct :: rest => pct :: percentages rest
  | .updateLoader pct _ _ :: rest => pct :: percentages rest
  | _ :: rest => percentages rest

/-- The documents emitted by `pdf.output` in a trace. -/
def outputs : List Event → List Pdf
  | [] => []
  | .output pdf :: rest => pdf :: outputs rest
  | _ :: rest => outputs rest

/-- The text that an event shows: the subtitle of the loader or the message
of a notification. -/
def Event.text : Event → Option String
  | .showLoader _ sub _ => some sub
  | .updateLoader _ _ sub => some sub
  | .notification message _ => some message
  | _ => none

/-! ## Sample data used by the concrete evaluations -/

/-- A freshly uploaded record with the given name and pixel size. -/
def sampleRecord (name : String) (width height : Nat) : Record where
  src := "data:image/jpeg;base64," ++ name
  originalSrc := "data:image/jpeg;base64," ++ name
  thumbnail := "data:image/jpeg;base64,thumb"
  name := name
  width := width
  height := height
  rotation := 0
  flipH := false
  flipV := false

/-- A state holding the given records and the default settings. -/
def stateOf (records : List Record) : State :=
  { State.initial with uploadedImages := records.map some }

/-- An environment in which nothing is cancelled and every image loads with
100 × 50 pixels. -/
def sampleEnv : Env where
  cancelled := fun _ => false
  decode := fun _ => some (100, 50)

/-- The state with the given records and `imagesPerPage`. -/
def stateWith (records : List Record) (imagesPerPage : Int) : State :=
  { stateOf records with
    settings := { CONFIG.defaultSettings with imagesPerPage := imagesPerPage } }

/-- Three uploaded images of 100 × 50 pixels. -/
def threeImages : List Record :=
  [sampleRecord "a" 100 50, sampleRecord "b" 100 50, sampleRecord "c" 100 50]

/-- Four uploaded images of 100 × 50 pixels. -/
def fourImages : List Record :=
  [sampleRecord "a" 100 50, sampleRecord "b" 100 50, sampleRecord "c" 100 50,
   sampleRecord "d" 100 50]

/-- The state with four images, one image per page and the page size `zzz`,
which is not in the table `pageSizes`. -/
def unknownPageSize : State :=
  { stateOf fourImages with
    settings := { CONFIG.defaultSettings with pageSize := "zzz" } }

/-- The environment of `sampleEnv` in which `cancelOperation` runs while the
first page is being processed: the check after one page reads `true`. -/
def cancelAfterFirstPage : Env where
  cancelled := fun p => decide (p = 1)
  decode := fun _ => some (100, 50)

/-! ## Deleting and editing a record -/

/-- A JavaScript value, as far as the program looks at it: `number` is a finite
number, and an array or object is kept as its JSON text. -/
inductive JsValue where
  | undefined
  | null
  | nan
  | bool (b : Bool)
  | number (q : ℚ)
  | string (s : String)
  | object (json : String)
  deriving DecidableEq

/-- `deleteImage(index)`, where `confirm` is the user's answer to the
confirmation dialog.  `Number.isInteger` is false for everything that is not a
number, and for a number with a fractional part. -/
def deleteImage (st : State) (index : JsValue) (confirm : Bool) : State :=
  match index with
  | .number q =>
    if ¬ q.isInt ∨ q < 0 ∨ q ≥ (st.uploadedImages.length : ℚ) then st
    else if confirm then
      { st with uploadedImages := (splice st.uploadedImages q.num 1 []).2 }
    else st
  | _ => st

/-- `openEditModal(index)`.  When the entry at `index` is `undefined`, reading
its `src` throws after `currentEditIndex` has been assigned. -/
def openEditModal (st : State) (index : JsValue) : State :=
  match index with
  | .number q =>
    if ¬ q.isInt ∨ q < 0 ∨ q ≥ (st.uploadedImages.length : ℚ) then st
    else
      match (st.uploadedImages[q.num.toNat]?).join with
      | none => { st with currentEditIndex := q.num }
      | some imageData =>
        { st with
          currentEditIndex := q.num
          currentRotation := imageData.rotation
          currentFlipH := imageData.flipH
          currentFlipV := imageData.flipV }
  | _ => st

/-- `closeEditModal()`. -/
def closeEditModal (st : State) : State :=
  { st with
    currentEditIndex := -1
    currentRotation := 0
    currentFlipH := false
    currentFlipV := false }

/-- `rotateImage(degrees)`; the operator `%` of JavaScript is the truncated
remainder `Int.tmod`. -/
def rotateImage (st : State) (degrees : Int) : State :=
  let r := Int.tmod (st.currentRotation + degrees) 360
  { st with currentRotation := if r < 0 then r + 360 else r }

/-- `flipImage(direction)`. -/
def flipImage (st : State) (direction : String) : State :=
  if direction = "horizontal" then { st with currentFlipH := !st.currentFlipH }
  else { st with currentFlipV := !st.currentFlipV }

/-- `applyImageEdit()`, with the `img.onload` callback run at once.  `env.decode`
gives the pixel size of the image loaded from the record, and `toDataURL src
rotation flipH flipV quality` is the data URL that the canvas returns for the
image `src` drawn with this rotation and these flips.  An `undefined` entry at
`currentEditIndex` throws before anything is changed, and a failed load changes
nothing. -/
def applyImageEdit (env : Env) (toDataURL : String → Int → Bool → Bool → ℚ → String)
    (st : State) : State :=
  if st.currentEditIndex = -1 then st
  else
    let entry : Option Record :=
      if 0 ≤ st.currentEditIndex then (st.uploadedImages[st.currentEditIndex.toNat]?).join
      else none
    match entry with
    | none => st
    | some imageData =>
      let src := if imageData.src ≠ "" then imageData.src else imageData.originalSrc
      match env.decode (sanitizeDataUrl src) with
      | none => st
      | some (imgWidth, imgHeight) =>
        let rot := Int.tmod st.currentRotation 360
        let absRot := Int.tmod (rot + 360) 360
        let canvasWidth := if absRot = 90 ∨ absRot = 270 then imgHeight else imgWidth
        let canvasHeight := if absRot = 90 ∨ absRot = 270 then imgWidth else imgHeight
        let dataUrl := toDataURL (sanitizeDataUrl src) st.currentRotation st.currentFlipH
          st.currentFlipV st.settings.imageQuality
        let edited : Record :=
          { imageData with
            src := sanitizeDataUrl dataUrl
            width := canvasWidth
            height := canvasHeight
            rotation := st.currentRotation
            flipH := st.currentFlipH
            flipV := st.currentFlipV }
        closeEditModal
          { st with
            uploadedImages := st.uploadedImages.set st.currentEditIndex.toNat (some edited) }

/-- The operations of an edit session. -/
inductive EditAction where
  | openEditModal (index : JsValue)
  | rotateImage (degrees : Int)
  | flipImage (direction : String)
  | applyImageEdit
  | closeEditModal

/-- One operation of an edit session on the state. -/
def EditAction.step (env : Env) (toDataURL : String → Int → Bool → Bool → ℚ → String)
    (st : State) : EditAction → State
  | .openEditModal index => ImageToPdf.openEditModal st index
  | .rotateImage degrees => ImageToPdf.rotateImage st degrees
  | .flipImage direction => ImageToPdf.flipImage st direction
  | .applyImageEdit => ImageToPdf.applyImageEdit env toDataURL st
  | .closeEditModal => ImageToPdf.closeEditModal st

/-- The state after a sequence of operations of edit sessions. -/
def editRun (env : Env) (toDataURL : String → Int → Bool → Bool → ℚ → String)
    (st : State) (actions : List EditAction) : State :=
  actions.foldl (EditAction.step env toDataURL) st

/-- A canvas whose data URL is the source followed by `+`. -/
def sampleToDataURL (src : String) (_rotation : Int) (_flipH _flipV : Bool) (_quality : ℚ) :
    String :=
  src ++ "+"

/-- An environment matching `sampleToDataURL` for an uploaded image `a` of
100 × 50 pixels: the once edited picture has 50 × 100 pixels. -/
def editEnv : Env where
  cancelled := fun _ => false
  decode := fun src =>
    if src = "data:image/jpeg;base64,a+" then some (50, 100) else some (100, 50)

/-- The rotations of the data model: 0, 90, 180 or 270 degrees. -/
def normalRotation (degrees : Int) : Prop :=
  degrees = 0 ∨ degrees = 90 ∨ degrees = 180 ∨ degrees = 270

/-- The state after uploading the image `a` of 100 × 50 pixels, opening it in
the edit modal, rotating it once to the right and applying the edit. -/
def editedOnce : State :=
  applyImageEdit editEnv sampleToDataURL
    (rotateImage (openEditModal (stateOf [sampleRecord "a" 100 50]) (.number 0)) 90)

/-! ## Settings (`loadSettings`, `saveSettingsHandler`, `resetSettingsHandler`) -/

/-- The object `state.settings` with whatever values its six keys hold.
`Settings` above is this object when every key holds a value of the expected
type. -/
structure SettingsObject where
  pageSize : JsValue
  orientation : JsValue
  imageQuality : JsValue
  margin : JsValue
  imagesPerPage : JsValue
  filename : JsValue
  deriving DecidableEq

/-- The settings as a JavaScript object. -/
def Settings.toObject (s : Settings) : SettingsObject where
  pageSize := .string s.pageSize
  orientation := .string s.orientation
  imageQuality := .number s.imageQuality
  margin := .number s.margin
  imagesPerPage := .number (s.imagesPerPage : ℚ)
  filename := .string s.filename

/-- What `JSON.parse` returns when it does not throw: an object, given by its
own properties, or another value (`null`, a number, a boolean, a string or an
array), which has no property named like a settings key. -/
inductive Parsed where
  | primitive (v : JsValue)
  | object (get : String → Option JsValue)

/-- `loadSettings()`, the part on `pdfSettings`: `saved` is the persisted entry
(`none` when missing), `parse` is `JSON.parse`, and `settings` is
`state.settings` before the call.  The result is `state.settings` afterwards;
an `error` would be an exception leaving the function, and the exception of
`JSON.parse` is caught inside. -/
def loadSettings (parse : String → Except String Parsed) (saved : Option String)
    (settings : SettingsObject) : Except String SettingsObject :=
  match saved with
  | none => .ok settings
  | some text =>
    if text = "" then .ok settings
    else
      match parse text with
      | .error _ => .ok settings
      | .ok (.primitive _) => .ok CONFIG.defaultSettings.toObject
      | .ok (.object get) =>
        .ok {
          pageSize := (get "pageSize").getD CONFIG.defaultSettings.toObject.pageSize
          orientation := (get "orientation").getD CONFIG.defaultSettings.toObject.orientation
          imageQuality := (get "imageQuality").getD CONFIG.defaultSettings.toObject.imageQuality
          margin := (get "margin").getD CONFIG.defaultSettings.toObject.margin
          imagesPerPage :=
            (get "imagesPerPage").getD CONFIG.defaultSettings.toObject.imagesPerPage
          filename := (get "filename").getD CONFIG.defaultSettings.toObject.filename }

/-- The `value` of the six elements of the settings form. -/
structure Form where
  pageSize : String
  orientation : String
  imageQuality : String
  margin : String
  imagesPerPage : String
  filename : String

/-- `saveSettingsHandler()`: the new `state.settings`.  `parseFloat` and
`parseInt` are the functions of JavaScript, with `none` for `NaN`. -/
def saveSettingsHandler (parseFloat : String → Option ℚ) (parseInt : String → Option Int)
    (form : Form) : Settings :=
  let imageQuality := parseFloat form.imageQuality
  let margin := parseInt form.margin
  let imagesPerPage := parseInt form.imagesPerPage
  let filename := (if form.filename ≠ "" then form.filename else "generated").trim
  { pageSize := form.pageSize
    orientation := form.orientation
    imageQuality :=
      match imageQuality with
      | none => CONFIG.defaultSettings.imageQuality
      | some q => q
    margin :=
      match margin with
      | none => CONFIG.defaultSettings.margin
      | some m => (m : ℚ)
    imagesPerPage :=
      match imagesPerPage with
      | none => CONFIG.defaultSettings.imagesPerPage
      | some k => k
    filename := if filename ≠ "" then filename else CONFIG.defaultSettings.filename }

/-- `resetSettingsHandler()`: the new `state.settings`. -/
def resetSettingsHandler : Settings := CONFIG.defaultSettings

/-- The operations on the settings. -/
inductive SettingsAction where
  | loadSettings (saved : Option String)
  | saveSettingsHandler (form : Form)
  | resetSettingsHandler

/-- One operation on the settings object. -/
def SettingsAction.step (parse : String → Except String Parsed)
    (parseFloat : String → Option ℚ) (parseInt : String → Option Int)
    (settings : SettingsObject) : SettingsAction → SettingsObject
  | .loadSettings saved =>
    match ImageToPdf.loadSettings parse saved settings with
    | .ok s => s
    | .error _ => settings
  | .saveSettingsHandler form => (ImageToPdf.saveSettingsHandler parseFloat parseInt form).toObject
  | .resetSettingsHandler => ImageToPdf.resetSettingsHandler.toObject

/-- The settings after a sequence of operations, starting from the defaults. -/
def settingsRun (parse : String → Except String Parsed)
    (parseFloat : String → Option ℚ) (parseInt : String → Option Int)
    (actions : List SettingsAction) : SettingsObject :=
  actions.foldl (SettingsAction.step parse parseFloat parseInt) CONFIG.defaultSettings.toObject

/-- The constraint of the data model on `pageSize`. -/
def validPageSize (v : JsValue) : Prop :=
  v = .string "a4" ∨ v = .string "letter" ∨ v = .string "legal" ∨ v = .string "a3"

/-- The constraint of the data model on `orientation`. -/
def validOrientation (v : JsValue) : Prop :=
  v = .string "portrait" ∨ v = .string "landscape"

/-- The constraint of the data model on `imageQuality`. -/
def validImageQuality (v : JsValue) : Prop :=
  ∃ q : ℚ, v = .number q ∧ 0 < q ∧ q ≤ 1

/-- The constraint of the data model on `margin`. -/
def validMargin (v : JsValue) : Prop :=
  ∃ q : ℚ, v = .number q ∧ 0 ≤ q

/-- The constraint of the data model on `imagesPerPage`. -/
def validImagesPerPage (v : JsValue) : Prop :=
  v = .number 1 ∨ v = .number 2 ∨ v = .number 4

/-- The constraint of the data model on `filename`. -/
def validFilename (v : JsValue) : Prop :=
  ∃ f : String, v = .string f ∧ f ≠ ""

/-- The constraints of the data model on the settings. -/
def SettingsObject.Valid (s : SettingsObject) : Prop :=
  validPageSize s.pageSize ∧ validOrientation s.orientation ∧
  validImageQuality s.imageQuality ∧ validMargin s.margin ∧
  validImagesPerPage s.imagesPerPage ∧ validFilename s.filename

/-- An operation whose inputs satisfy the constraints: a persisted object
holds a valid value at each settings key it has, and the form fields hold a
listed page size and orientation and numbers that, when they parse, satisfy
the constraints. -/
def SettingsAction.inputsValid (parse : String → Except String Parsed)
    (parseFloat : String → Option ℚ) (parseInt : String → Option Int) :
    SettingsAction → Prop
  | .loadSettings saved =>
    ∀ text get, saved = some text → parse text = .ok (.object get) →
      (∀ v, get "pageSize" = some v → validPageSize v) ∧
      (∀ v, get "orientation" = some v → validOrientation v) ∧
      (∀ v, get "imageQuality" = some v → validImageQuality v) ∧
      (∀ v, get "margin" = some v → validMargin v) ∧
      (∀ v, get "imagesPerPage" = some v → validImagesPerPage v) ∧
      (∀ v, get "filename" = some v → validFilename v)
  | .saveSettingsHandler form =>
    validPageSize (.string form.pageSize) ∧ validOrientation (.string form.orientation) ∧
    (∀ q, parseFloat form.imageQuality = some q → 0 < q ∧ q ≤ 1) ∧
    (∀ m, parseInt form.margin = some m → 0 ≤ m) ∧
    (∀ k, parseInt form.imagesPerPage = some k → k = 1 ∨ k = 2 ∨ k = 4)
  | .resetSettingsHandler => True

/-- A `JSON.parse` that knows the text of an object with `imagesPerPage` 3 and
rejects every other text. -/
def sampleParse (text : String) : Except String Parsed :=
  if text = "\x7b\"imagesPerPage\":3\x7d" then
    .ok (.object (fun key => if key = "imagesPerPage" then some (.number 3) else none))
  else .error "SyntaxError"

/-! # Properties -/

/-! ## Lemmas on `splice` and `onEnd` -/

theorem take_one_drop {α : Type} (arr : List α) (i : Nat) (h : i < arr.length) :
    (arr.drop i).take 1 = [arr[i]] := by
  induction arr generalizing i with
  | nil => simp at h
  | cons x xs ih =>
    cases i with
    | zero => simp
    | succ j =>
      have hj : j < xs.length := by simpa using h
      simpa using ih j hj

theorem take_append_drop_eq_insertIdx {α : Type} (arr : List α) (i : Nat)
    (h : i ≤ arr.length) (a : α) :
    arr.take i ++ [a] ++ arr.drop i = arr.insertIdx i a := by
  induction arr generalizing i with
  | nil =>
    have : i = 0 := by simpa using h
    subst this; simp
  | cons x xs ih =>
    cases i with
    | zero => simp
    | succ j =>
      have hj : j ≤ xs.length := by simpa using h
      have := ih j hj
      simp only [List.take_succ_cons, List.drop_succ_cons, List.insertIdx_succ_cons,
        List.cons_append] at this ⊢
      rw [this]

theorem splice_remove_one {α : Type} (arr : List α) (i : Nat) (h : i < arr.length) :
    splice arr (i : Int) 1 [] = ([arr[i]], arr.eraseIdx i) := by
  have h1 : ¬ ((i : Int) < 0) := by omega
  have h2 : (min (i : Int) (arr.length : Int)).toNat = i := by
    rw [min_eq_left (by omega)]; simp
  have h3 : min 1 (arr.length - i) = 1 := by omega
  simp only [splice, h1, if_false, h2, h3]
  rw [take_one_drop arr i h]
  simp [List.eraseIdx_eq_take_drop_succ]

theorem splice_insert_one {α : Type} (arr : List α) (i : Nat) (h : i ≤ arr.length) (a : α) :
    (splice arr (i : Int) 0 [a]).2 = arr.insertIdx i a := by
  have h1 : ¬ ((i : Int) < 0) := by omega
  have h2 : (min (i : Int) (arr.length : Int)).toNat = i := by
    rw [min_eq_left (by omega)]; simp
  simp only [splice, h1, if_false, h2, Nat.zero_min, Nat.add_zero]
  exact take_append_drop_eq_insertIdx arr i h a

/-- With both indices inside the array, `onEnd` erases the entry at `oldIndex`
and inserts it again at `newIndex`. -/
theorem onEnd_valid (st : State) (i j : Nat) (hi : i < st.uploadedImages.length)
    (hj : j < st.uploadedImages.length) :
    (onEnd st i j).uploadedImages =
      (st.uploadedImages.eraseIdx i).insertIdx j (st.uploadedImages[i]) := by
  have hlen : j ≤ (st.uploadedImages.eraseIdx i).length := by
    rw [List.length_eraseIdx_of_lt hi]; omega
  simp only [onEnd, splice_remove_one _ i hi]
  rw [splice_insert_one _ j hlen]
  simp

theorem insertIdx_eraseIdx_getElem {α : Type} (l : List α) (i : Nat) (h : i < l.length) :
    (l.eraseIdx i).insertIdx i (l[i]) = l := by
  induction l generalizing i with
  | nil => simp at h
  | cons x xs ih =>
    cases i with
    | zero => simp
    | succ j =>
      have hj : j < xs.length := by simpa using h
      simpa using ih j hj

theorem cons_eraseIdx_perm {α : Type} (l : List α) (i : Nat) (h : i < l.length) :
    (l[i] :: l.eraseIdx i).Perm l := by
  induction l generalizing i with
  | nil => simp at h
  | cons x xs ih =>
    cases i with
    | zero => simp
    | succ j =>
      have hj : j < xs.length := by simpa using h
      have := ih j hj
      simp only [List.getElem_cons_succ, List.eraseIdx_cons_succ]
      exact (List.Perm.swap x xs[j] _).trans (this.cons x)

/-! ## The reorder handler (C1, C10) -/

/-- C1: for valid indices `oldIndex`, `newIndex` the reorder done by `onEnd`
keeps the length and the multiset of the collection, puts the moved record at
index `newIndex`, and leaves the other records in their original relative
order (the result without position `newIndex` is the original without position
`oldIndex`). -/
theorem onEnd_reorder_valid (st : State) (oldIndex newIndex : Int)
    (ho : 0 ≤ oldIndex ∧ oldIndex < st.uploadedImages.length)
    (hn : 0 ≤ newIndex ∧ newIndex < st.uploadedImages.length) :
    (onEnd st oldIndex newIndex).uploadedImages.length = st.uploadedImages.length ∧
    (onEnd st oldIndex newIndex).uploadedImages.Perm st.uploadedImages ∧
    (onEnd st oldIndex newIndex).uploadedImages[newIndex.toNat]? =
      st.uploadedImages[oldIndex.toNat]? ∧
    (onEnd st oldIndex newIndex).uploadedImages.eraseIdx newIndex.toNat =
      st.uploadedImages.eraseIdx oldIndex.toNat := by
  obtain ⟨i, rfl⟩ := Int.eq_ofNat_of_zero_le ho.1
  obtain ⟨j, rfl⟩ := Int.eq_ofNat_of_zero_le hn.1
  have hi : i < st.uploadedImages.length := by omega
  have hj : j < st.uploadedImages.length := by omega
  have hlen : j ≤ (st.uploadedImages.eraseIdx i).length := by
    rw [List.length_eraseIdx_of_lt hi]; omega
  simp only [Int.toNat_ofNat]
  rw [onEnd_valid st i j hi hj]
  refine ⟨?_, ?_, ?_, ?_⟩
  · rw [List.length_insertIdx _ _ hlen, List.length_eraseIdx_of_lt hi]; omega
  · exact (List.perm_insertIdx _ _ hlen).trans (cons_eraseIdx_perm _ i hi)
  · have hj2 : j < ((st.uploadedImages.eraseIdx i).insertIdx j st.uploadedImages[i]).length := by
      rw [List.length_insertIdx _ _ hlen, List.length_eraseIdx_of_lt hi]; omega
    rw [List.getElem?_eq_getElem hj2, List.getElem?_eq_getElem hi]
    congr 1
    exact List.getElem_insertIdx_self _ _ _ hlen
  · exact List.eraseIdx_insertIdx _ _

/-- C1, at three records: moving the first record to the end. -/
theorem onEnd_reorder_valid_witness :
    (0 ≤ (0 : Int) ∧ (0 : Int) <
        (stateOf [sampleRecord "a" 1 1, sampleRecord "b" 2 2, sampleRecord "c" 3 3]).uploadedImages.length) ∧
    (0 ≤ (2 : Int) ∧ (2 : Int) <
        (stateOf [sampleRecord "a" 1 1, sampleRecord "b" 2 2, sampleRecord "c" 3 3]).uploadedImages.length) ∧
    (onEnd (stateOf [sampleRecord "a" 1 1, sampleRecord "b" 2 2, sampleRecord "c" 3 3]) 0 2).uploadedImages.eraseIdx
        (2 : Int).toNat =
      (stateOf [sampleRecord "a" 1 1, sampleRecord "b" 2 2, sampleRecord "c" 3 3]).uploadedImages.eraseIdx
        (0 : Int).toNat :=
  ⟨by decide, by decide,
    (onEnd_reorder_valid (stateOf [sampleRecord "a" 1 1, sampleRecord "b" 2 2, sampleRecord "c" 3 3])
      0 2 (by decide) (by decide)).2.2.2⟩

/-- C10 as stated fails: for the non-adjacent pair `0`, `2` in a collection of
three distinct records, the reorder `0 → 2` followed by the reorder `2 → 0`
restores the original order. -/
theorem onEnd_swapped_restores_nonadjacent :
    (stateOf [sampleRecord "a" 1 1, sampleRecord "b" 2 2, sampleRecord "c" 3 3]).uploadedImages.Nodup ∧
    ¬ (|(0 : Int) - 2| ≤ 1) ∧
    (onEnd (onEnd (stateOf [sampleRecord "a" 1 1, sampleRecord "b" 2 2, sampleRecord "c" 3 3]) 0 2)
        2 0).uploadedImages =
      (stateOf [sampleRecord "a" 1 1, sampleRecord "b" 2 2, sampleRecord "c" 3 3]).uploadedImages := by
  refine ⟨by decide, by decide, by decide⟩

/-- C10, amended: for every pair of valid indices, adjacent or not, the reorder
`oldIndex → newIndex` followed by the reorder with swapped arguments restores
the original collection. -/
theorem onEnd_swapped_restores (st : State) (oldIndex newIndex : Int)
    (ho : 0 ≤ oldIndex ∧ oldIndex < st.uploadedImages.length)
    (hn : 0 ≤ newIndex ∧ newIndex < st.uploadedImages.length) :
    (onEnd (onEnd st oldIndex newIndex) newIndex oldIndex).uploadedImages =
      st.uploadedImages := by
  obtain ⟨i, rfl⟩ := Int.eq_ofNat_of_zero_le ho.1
  obtain ⟨j, rfl⟩ := Int.eq_ofNat_of_zero_le hn.1
  have hi : i < st.uploadedImages.length := by omega
  have hj : j < st.uploadedImages.length := by omega
  have hlen : j ≤ (st.uploadedImages.eraseIdx i).length := by
    rw [List.length_eraseIdx_of_lt hi]; omega
  have h1 := onEnd_valid st i j hi hj
  have hl1 : (onEnd st i j).uploadedImages.length = st.uploadedImages.length := by
    rw [h1, List.length_insertIdx _ _ hlen, List.length_eraseIdx_of_lt hi]; omega
  have hi1 : i < (onEnd st i j).uploadedImages.length := by omega
  have hj1 : j < (onEnd st i j).uploadedImages.length := by omega
  rw [onEnd_valid (onEnd st i j) j i hj1 hi1]
  have hget : (onEnd st i j).uploadedImages[j] = st.uploadedImages[i] := by
    simp only [h1]
    exact List.getElem_insertIdx_self _ _ _ hlen
  rw [hget]
  have her : (onEnd st i j).uploadedImages.eraseIdx j = st.uploadedImages.eraseIdx i := by
    rw [h1]; exact List.eraseIdx_insertIdx _ _
  rw [her]
  exact insertIdx_eraseIdx_getElem _ i hi

/-- C10, amended, at three records and the non-adjacent indices `0` and `2`. -/
theorem onEnd_swapped_restores_witness :
    (0 ≤ (0 : Int) ∧ (0 : Int) <
        (stateOf [sampleRecord "a" 1 1, sampleRecord "b" 2 2, sampleRecord "c" 3 3]).uploadedImages.length) ∧
    (0 ≤ (2 : Int) ∧ (2 : Int) <
        (stateOf [sampleRecord "a" 1 1, sampleRecord "b" 2 2, sampleRecord "c" 3 3]).uploadedImages.length) ∧
    (onEnd (onEnd (stateOf [sampleRecord "a" 1 1, sampleRecord "b" 2 2, sampleRecord "c" 3 3]) 2 0)
        0 2).uploadedImages =
      (stateOf [sampleRecord "a" 1 1, sampleRecord "b" 2 2, sampleRecord "c" 3 3]).uploadedImages :=
  ⟨by decide, by decide,
    onEnd_swapped_restores (stateOf [sampleRecord "a" 1 1, sampleRecord "b" 2 2, sampleRecord "c" 3 3])
      2 0 (by decide) (by decide)⟩

/-! ## Upload validation (C5, C6) -/

/-- The files that pass the two per-file checks of `processFiles`. -/
theorem processFiles_each_foldl (files : List File) (acc : Upload) :
    (files.foldl processFiles.each acc).started =
        acc.started ++ files.filter (fun f =>
          decide (f.type ∈ CONFIG.supportedFormats ∧ f.size ≤ CONFIG.maxFileSize)) ∧
    (files.foldl processFiles.each acc).validFiles =
        acc.validFiles + (files.filter (fun f =>
          decide (f.type ∈ CONFIG.supportedFormats ∧ f.size ≤ CONFIG.maxFileSize))).length ∧
    (files.foldl processFiles.each acc).validFiles +
        (files.foldl processFiles.each acc).invalidFiles =
      acc.validFiles + acc.invalidFiles + files.length := by
  induction files generalizing acc with
  | nil => simp
  | cons f fs ih =>
    simp only [List.foldl_cons, List.length_cons]
    obtain ⟨h1, h2, h3⟩ := ih (processFiles.each acc f)
    refine ⟨h1.trans ?_, h2.trans ?_, h3.trans ?_⟩ <;>
    · by_cases hf : f.type ∈ CONFIG.supportedFormats
      · by_cases hs : f.size ≤ CONFIG.maxFileSize
        · have hs2 : ¬ (f.size > CONFIG.maxFileSize) := by omega
          simp [processFiles.each, hf, hs, hs2, List.filter_cons]
          try omega
        · have hs2 : f.size > CONFIG.maxFileSize := by omega
          simp [processFiles.each, hf, hs, hs2, List.filter_cons]
          try omega
      · simp [processFiles.each, hf, List.filter_cons]
        try omega

theorem uploadsCompleted_images (completed : List File) (st : State) :
    (uploadsCompleted st completed).uploadedImages =
      st.uploadedImages ++
        completed.filterMap (fun f => f.decoded.map (fun d => some (imageData f d))) := by
  induction completed generalizing st with
  | nil => simp [uploadsCompleted]
  | cons f fs ih =>
    have hstep : uploadsCompleted st (f :: fs) = uploadsCompleted (imageLoaded st f) fs := rfl
    rw [hstep, ih]
    cases hd : f.decoded with
    | none => simp [imageLoaded, hd, List.filterMap_cons]
    | some d => simp [imageLoaded, hd, List.filterMap_cons]

/-- C5: when the collection and the batch together exceed 50 files,
`processFiles` starts no reader and counts no valid file, so that whatever the
browser completes afterwards the collection is the one before the call. -/
theorem processFiles_over_capacity (st : State) (files : List File)
    (h : st.uploadedImages.length + files.length > 50) :
    (processFiles st files).started = [] ∧
    (processFiles st files).validFiles = 0 ∧
    ∀ completed : List File, completed.Perm (processFiles st files).started →
      (uploadsCompleted st completed).uploadedImages = st.uploadedImages := by
  have hc : st.uploadedImages.length + files.length > CONFIG.maxImages := h
  have hs : (processFiles st files).started = [] := by simp [processFiles, hc]
  refine ⟨hs, by simp [processFiles, hc], ?_⟩
  intro completed hp
  rw [hs] at hp
  rw [List.Perm.eq_nil hp]
  rfl

/-- C5 at the scenario of the design document: 51 JPEG files into the empty
collection. -/
theorem processFiles_over_capacity_witness :
    State.initial.uploadedImages.length +
        (List.replicate 51 (File.mk "a.jpg" "image/jpeg" 1000
          (some (Decoded.mk "data:image/jpeg;base64,AA" "data:," 4 3)))).length > 50 ∧
    (processFiles State.initial (List.replicate 51 (File.mk "a.jpg" "image/jpeg" 1000
        (some (Decoded.mk "data:image/jpeg;base64,AA" "data:," 4 3))))).started = [] :=
  ⟨by decide,
    (processFiles_over_capacity State.initial (List.replicate 51 (File.mk "a.jpg" "image/jpeg" 1000
        (some (Decoded.mk "data:image/jpeg;base64,AA" "data:," 4 3)))) (by decide)).1⟩

/-- C6 as stated fails: a file of an allowed type and size that the browser
cannot read or decode passes both checks and is handed to the reader, yet no
record is appended for it. -/
theorem processFiles_valid_file_not_appended :
    State.initial.uploadedImages.length + [File.mk "broken.png" "image/png" 100 none].length ≤ 50 ∧
    (File.mk "broken.png" "image/png" 100 none).type = "image/png" ∧
    (File.mk "broken.png" "image/png" 100 none).size ≤ 10 * 1024 * 1024 ∧
    (processFiles State.initial [File.mk "broken.png" "image/png" 100 none]).started =
      [File.mk "broken.png" "image/png" 100 none] ∧
    (uploadsCompleted State.initial
      (processFiles State.initial [File.mk "broken.png" "image/png" 100 none]).started).uploadedImages
      = [] := by
  refine ⟨by decide, rfl, by decide, by decide, by decide⟩

/-- C6, amended: in a batch that passes the count check, a file is handed to
the reader (and counted as valid) exactly when its type is one of the four
formats and its size is at most 10 MiB, independently of the other files and
in batch order; valid and skipped files add up to the batch; and a started
file is appended as a record exactly when the browser reads and decodes it. -/
theorem processFiles_admits (st : State) (files : List File)
    (h : st.uploadedImages.length + files.length ≤ 50) :
    (processFiles st files).started =
      files.filter (fun f => decide ((f.type = "image/jpeg" ∨ f.type = "image/png" ∨
        f.type = "image/gif" ∨ f.type = "image/webp") ∧ f.size ≤ 10 * 1024 * 1024)) ∧
    (processFiles st files).validFiles = (processFiles st files).started.length ∧
    (processFiles st files).validFiles + (processFiles st files).invalidFiles = files.length ∧
    ∀ completed : List File, completed.Perm (processFiles st files).started →
      (uploadsCompleted st completed).uploadedImages =
        st.uploadedImages ++
          completed.filterMap (fun f => f.decoded.map (fun d => some (imageData f d))) := by
  have hc : ¬ (st.uploadedImages.length + files.length > CONFIG.maxImages) := by
    simp only [CONFIG.maxImages]; omega
  obtain ⟨h1, h2, h3⟩ := processFiles_each_foldl files
    { started := [], validFiles := 0, invalidFiles := 0, notifications := [] }
  have hfilter : (fun f : File => decide (f.type ∈ CONFIG.supportedFormats ∧
        f.size ≤ CONFIG.maxFileSize)) =
      (fun f : File => decide ((f.type = "image/jpeg" ∨ f.type = "image/png" ∨
        f.type = "image/gif" ∨ f.type = "image/webp") ∧ f.size ≤ 10 * 1024 * 1024)) := by
    funext f
    simp [CONFIG.supportedFormats, CONFIG.maxFileSize]
  rw [hfilter] at h1 h2
  refine ⟨?_, ?_, ?_, ?_⟩
  · simpa [processFiles, hc] using h1
  · simp only [processFiles, hc, if_false]
    rw [h2, h1]; simp
  · simpa [processFiles, hc] using h3
  · intro completed _
    exact uploadsCompleted_images completed st

/-- C6, amended, at a batch of three files: a text file, a small PNG and an
oversized JPEG. -/
theorem processFiles_admits_witness :
    State.initial.uploadedImages.length +
      [File.mk "a.txt" "text/plain" 10 none,
       File.mk "b.png" "image/png" 2000 (some (Decoded.mk "data:image/png;base64,AA" "data:," 4 3)),
       File.mk "c.jpg" "image/jpeg" 10485761 none].length ≤ 50 ∧
    (processFiles State.initial
      [File.mk "a.txt" "text/plain" 10 none,
       File.mk "b.png" "image/png" 2000 (some (Decoded.mk "data:image/png;base64,AA" "data:," 4 3)),
       File.mk "c.jpg" "image/jpeg" 10485761 none]).validFiles +
    (processFiles State.initial
      [File.mk "a.txt" "text/plain" 10 none,
       File.mk "b.png" "image/png" 2000 (some (Decoded.mk "data:image/png;base64,AA" "data:," 4 3)),
       File.mk "c.jpg" "image/jpeg" 10485761 none]).invalidFiles = 3 :=
  ⟨by decide,
    (processFiles_admits State.initial
      [File.mk "a.txt" "text/plain" 10 none,
       File.mk "b.png" "image/png" 2000 (some (Decoded.mk "data:image/png;base64,AA" "data:," 4 3)),
       File.mk "c.jpg" "image/jpeg" 10485761 none] (by decide)).2.2.1⟩

/-! ## The page loop of `generatePDF` -/

theorem pageLoop_done (env : Env) (st : State) (pageWidth pageHeight : ℚ) (fuel : Nat)
    (i : Int) (pageCount : Nat) (pdf : Pdf) (h : ¬ (i < (st.uploadedImages.length : Int))) :
    generatePDF.pageLoop env st pageWidth pageHeight fuel i pageCount pdf =
      some { result := .ok pdf, pageCount := pageCount, trace := [] } := by
  cases fuel <;> simp [generatePDF.pageLoop, h]

theorem pageLoop_stop (env : Env) (st : State) (pageWidth pageHeight : ℚ) (fuel : Nat)
    (i : Int) (pageCount : Nat) (pdf : Pdf)
    (hlt : i < (st.uploadedImages.length : Int)) (hc : env.cancelled pageCount = true) :
    generatePDF.pageLoop env st pageWidth pageHeight (fuel + 1) i pageCount pdf =
      some { result := .error "Operation cancelled", pageCount := pageCount, trace := [] } := by
  rw [generatePDF.pageLoop]
  simp only [hlt, if_true, hc]

/-- An iteration that passes the check either fails, after its progress
report, or goes on with the next page. -/
theorem pageLoop_succ_cases (env : Env) (st : State) (pageWidth pageHeight : ℚ) (fuel : Nat)
    (i : Int) (pageCount : Nat) (pdf : Pdf)
    (hlt : i < (st.uploadedImages.length : Int)) (hc : env.cancelled pageCount = false) :
    (∃ e, generatePDF.pageLoop env st pageWidth pageHeight (fuel + 1) i pageCount pdf =
        some { result := .error e, pageCount := pageCount,
               trace := [generatePDF.progress st i pageCount] }) ∨
    (∃ pdf2, generatePDF.pageLoop env st pageWidth pageHeight (fuel + 1) i pageCount pdf =
        (generatePDF.pageLoop env st pageWidth pageHeight fuel
          (i + st.settings.imagesPerPage) (pageCount + 1) pdf2).map
          (fun r => { r with trace := generatePDF.progress st i pageCount :: r.trace })) := by
  rw [generatePDF.pageLoop]
  simp only [hlt, if_true, hc, Bool.false_eq_true, if_false]
  repeat' split
  all_goals first | exact Or.inl ⟨_, rfl⟩ | exact Or.inr ⟨_, rfl⟩

/-- The page loop reports progress and nothing else. -/
theorem pageLoop_trace (env : Env) (st : State) (pageWidth pageHeight : ℚ) (fuel : Nat) :
    ∀ (i : Int) (pageCount : Nat) (pdf : Pdf) (loop : Loop),
      generatePDF.pageLoop env st pageWidth pageHeight fuel i pageCount pdf = some loop →
      ∀ ev ∈ loop.trace, ∃ pct title sub, ev = Event.updateLoader pct title sub := by
  induction fuel with
  | zero =>
    intro i pageCount pdf loop h ev hev
    unfold generatePDF.pageLoop at h
    split at h
    · exact absurd h (by simp)
    · simp only [Option.some.injEq] at h
      subst h
      simp at hev
  | succ fuel ih =>
    intro i pageCount pdf loop h ev hev
    by_cases hlt : i < (st.uploadedImages.length : Int)
    · cases hc : env.cancelled pageCount with
      | true =>
        rw [pageLoop_stop env st _ _ fuel i pageCount pdf hlt hc] at h
        simp only [Option.some.injEq] at h
        subst h
        simp at hev
      | false =>
        rcases pageLoop_succ_cases env st pageWidth pageHeight fuel i pageCount pdf hlt hc
          with ⟨e, he⟩ | ⟨pdf2, hp⟩
        · rw [he] at h
          simp only [Option.some.injEq] at h
          subst h
          simp only [List.mem_singleton] at hev
          exact ⟨_, _, _, hev.trans rfl⟩
        · rw [hp, Option.map_eq_some'] at h
          obtain ⟨r, hr, hrl⟩ := h
          subst hrl
          simp only [List.mem_cons] at hev
          rcases hev with hev | hev
          · exact ⟨_, _, _, hev.trans rfl⟩
          · exact ih _ _ _ r hr ev hev
    · rw [pageLoop_done env st _ _ _ i pageCount pdf hlt] at h
      simp only [Option.some.injEq] at h
      subst h
      simp at hev

/-- When the flag reads `true` at a check `q` that the loop can reach, the
loop ends, either by a thrown error or with the flag set at the check after
the last page. -/
theorem pageLoop_cancelled (env : Env) (st : State) (pageWidth pageHeight : ℚ) (q : Nat)
    (hq : env.cancelled q = true) (hn : 0 < st.uploadedImages.length) (fuel : Nat) :
    ∀ (i : Int) (pageCount : Nat) (pdf : Pdf),
      pageCount ≤ q → i = (pageCount : Int) * st.settings.imagesPerPage →
      (q = pageCount ∨
        ((q : Int) - 1) * st.settings.imagesPerPage < (st.uploadedImages.length : Int)) →
      q - pageCount < fuel →
      ∃ loop, generatePDF.pageLoop env st pageWidth pageHeight fuel i pageCount pdf = some loop ∧
        ((∃ e, loop.result = .error e) ∨
          ((∃ doc, loop.result = .ok doc) ∧ env.cancelled loop.pageCount = true)) := by
  induction fuel with
  | zero => intro i pageCount pdf _ _ _ hf; omega
  | succ fuel ih =>
    intro i pageCount pdf hle hi hreach hf
    by_cases hlt : i < (st.uploadedImages.length : Int)
    · cases hc : env.cancelled pageCount with
      | true =>
        rw [pageLoop_stop env st _ _ fuel i pageCount pdf hlt hc]
        exact ⟨_, rfl, Or.inl ⟨_, rfl⟩⟩
      | false =>
        have hne : q ≠ pageCount := by
          intro h; subst h; rw [hq] at hc; exact absurd hc (by simp)
        have hlt2 : pageCount + 1 ≤ q := by omega
        rcases pageLoop_succ_cases env st pageWidth pageHeight fuel i pageCount pdf hlt hc
          with ⟨e, he⟩ | ⟨pdf2, hp⟩
        · rw [he]
          exact ⟨_, rfl, Or.inl ⟨_, rfl⟩⟩
        · have hreach2 : q = pageCount + 1 ∨
              ((q : Int) - 1) * st.settings.imagesPerPage < (st.uploadedImages.length : Int) := by
            rcases hreach with h | h
            · exact absurd h hne
            · exact Or.inr h
          have hi2 : i + st.settings.imagesPerPage =
              ((pageCount + 1 : Nat) : Int) * st.settings.imagesPerPage := by
            rw [hi]; push_cast; ring
          obtain ⟨loop, hloop, hres⟩ := ih (i + st.settings.imagesPerPage) (pageCount + 1) pdf2
            hlt2 hi2 hreach2 (by omega)
          rw [hp, hloop]
          simp only [Option.map_some']
          exact ⟨_, rfl, hres⟩
    · rw [pageLoop_done env st _ _ _ i pageCount pdf hlt]
      refine ⟨_, rfl, Or.inr ⟨⟨_, rfl⟩, ?_⟩⟩
      simp only
      by_cases hqp : q = pageCount
      · rw [← hqp]; exact hq
      rcases hreach with h | h
      · exact absurd h hqp
      · exfalso
        apply hlt
        have h1 : (pageCount : Int) ≤ (q : Int) - 1 := by omega
        have h0 : (0 : Int) ≤ (pageCount : Int) := Int.ofNat_nonneg _
        have hn2 : (0 : Int) < (st.uploadedImages.length : Int) := by exact_mod_cast hn
        rw [hi]
        rcases le_or_lt 0 st.settings.imagesPerPage with hk | hk
        · calc (pageCount : Int) * st.settings.imagesPerPage
              ≤ ((q : Int) - 1) * st.settings.imagesPerPage :=
                mul_le_mul_of_nonneg_right h1 hk
            _ < _ := h
        · have : (pageCount : Int) * st.settings.imagesPerPage ≤ 0 :=
            mul_nonpos_of_nonneg_of_nonpos h0 (le_of_lt hk)
          omega

/-! ## Cancellation (C7) -/

/-- A trace without emitting events has no output, no preview and no
download. -/
theorem not_emits_mem (tr : List Event) (h : ∀ ev ∈ tr, ev.emits = false)
    (P : Prop) (hP : P) :
    (∀ pdf, Event.output pdf ∉ tr) ∧ Event.preview ∉ tr ∧
      (∀ filename, Event.download filename ∉ tr) ∧ P := by
  refine ⟨?_, ?_, ?_, hP⟩
  · intro pdf hm
    exact absurd (h _ hm) (by simp [Event.emits])
  · intro hm
    exact absurd (h _ hm) (by simp [Event.emits])
  · intro filename hm
    exact absurd (h _ hm) (by simp [Event.emits])

/-- C7: on a non-empty collection, if the flag reads `true` at a check `p`
that the loop can reach (the check before the first page, or the check that
follows an existing page `p - 1`), then the run ends (with enough fuel for
`p` pages) without `pdf.output`, without preview and without download, and
the collection is the one before the run. -/
theorem generatePDF_cancelled (env : Env) (st : State) (p fuel : Nat)
    (hne : st.uploadedImages ≠ [])
    (hp : env.cancelled p = true)
    (hreach : p = 0 ∨
      ((p : Int) - 1) * st.settings.imagesPerPage < (st.uploadedImages.length : Int))
    (hfuel : p < fuel) :
    ∃ run, generatePDF env st fuel = some run ∧
      (∀ pdf, Event.output pdf ∉ run.trace) ∧
      Event.preview ∉ run.trace ∧
      (∀ filename, Event.download filename ∉ run.trace) ∧
      run.state.uploadedImages = st.uploadedImages := by
  have hlen : 0 < st.uploadedImages.length := List.length_pos.mpr hne
  have hlen0 : ¬ (st.uploadedImages.length = 0) := by omega
  obtain ⟨loop, hloop, hres⟩ := pageLoop_cancelled env { st with operationCancelled := false }
    (generatePDF.pageGeometry st.settings).1 (generatePDF.pageGeometry st.settings).2 p hp hlen
    fuel 0 0 Pdf.new (Nat.zero_le _) (by simp) hreach (by omega)
  have htr : ∀ ev ∈ loop.trace, ev.emits = false := by
    intro ev hev
    obtain ⟨_, _, _, h⟩ := pageLoop_trace env _ _ _ fuel 0 0 Pdf.new loop hloop ev hev
    rw [h]; rfl
  unfold generatePDF
  simp only [hlen0, if_false]
  split
  · refine ⟨_, rfl, ?_⟩
    refine not_emits_mem _ ?_ _ rfl
    intro ev hmem
    simp only [List.mem_cons, List.mem_singleton, List.not_mem_nil, or_false] at hmem
    rcases hmem with h | h | h | h | h <;> (rw [h]; rfl)
  simp only [hloop]
  rcases hres with ⟨e, he⟩ | ⟨⟨doc, hdoc⟩, hc⟩
  · simp only [he]
    refine ⟨_, rfl, ?_⟩
    refine not_emits_mem _ ?_ _ rfl
    intro ev hmem
    simp only [List.mem_append, List.mem_cons, List.mem_singleton, List.not_mem_nil,
      or_false] at hmem
    rcases hmem with ((h | h) | h) | h | h | h
    · rw [h]; rfl
    · rw [h]; rfl
    · exact htr ev h
    · rw [h]; rfl
    · rw [h]; rfl
    · rw [h]; split <;> rfl
  · simp only [hdoc, hc, if_true]
    refine ⟨_, rfl, ?_⟩
    refine not_emits_mem _ ?_ _ rfl
    intro ev hmem
    simp only [List.mem_append, List.mem_cons, List.mem_singleton, List.not_mem_nil,
      or_false] at hmem
    rcases hmem with ((h | h) | h) | h | h
    · rw [h]; rfl
    · rw [h]; rfl
    · exact htr ev h
    · rw [h]; rfl
    · rw [h]; rfl

/-! ## Placement of one image (C4) -/

theorem scaled_le_slot (imgWidth imgHeight maxWidth maxHeight : ℚ)
    (hw : 0 < imgWidth) (hh : 0 < imgHeight) :
    imgWidth * min (min (maxWidth / imgWidth) (maxHeight / imgHeight)) 1 ≤ maxWidth ∧
    imgHeight * min (min (maxWidth / imgWidth) (maxHeight / imgHeight)) 1 ≤ maxHeight := by
  constructor
  · have h1 : min (min (maxWidth / imgWidth) (maxHeight / imgHeight)) 1 ≤ maxWidth / imgWidth :=
      le_trans (min_le_left _ _) (min_le_left _ _)
    calc imgWidth * min (min (maxWidth / imgWidth) (maxHeight / imgHeight)) 1
        ≤ imgWidth * (maxWidth / imgWidth) := mul_le_mul_of_nonneg_left h1 (le_of_lt hw)
      _ = maxWidth := by field_simp
  · have h1 : min (min (maxWidth / imgWidth) (maxHeight / imgHeight)) 1 ≤ maxHeight / imgHeight :=
      le_trans (min_le_left _ _) (min_le_right _ _)
    calc imgHeight * min (min (maxWidth / imgWidth) (maxHeight / imgHeight)) 1
        ≤ imgHeight * (maxHeight / imgHeight) := mul_le_mul_of_nonneg_left h1 (le_of_lt hh)
      _ = maxHeight := by field_simp

/-- In a slot at least one point wide and high the rectangle stays inside the
slot. -/
theorem rect_inside_slot (imgWidth imgHeight x y maxWidth maxHeight : ℚ)
    (hw : 0 < imgWidth) (hh : 0 < imgHeight) (h1 : 1 ≤ maxWidth) (h2 : 1 ≤ maxHeight) :
    x ≤ (addImageToPDF.rect imgWidth imgHeight x y maxWidth maxHeight).x ∧
    (addImageToPDF.rect imgWidth imgHeight x y maxWidth maxHeight).x +
      (addImageToPDF.rect imgWidth imgHeight x y maxWidth maxHeight).width ≤ x + maxWidth ∧
    y ≤ (addImageToPDF.rect imgWidth imgHeight x y maxWidth maxHeight).y ∧
    (addImageToPDF.rect imgWidth imgHeight x y maxWidth maxHeight).y +
      (addImageToPDF.rect imgWidth imgHeight x y maxWidth maxHeight).height ≤ y + maxHeight := by
  obtain ⟨hsw, hsh⟩ := scaled_le_slot imgWidth imgHeight maxWidth maxHeight hw hh
  have hW : max 1 (imgWidth * min (min (maxWidth / imgWidth) (maxHeight / imgHeight)) 1)
      ≤ maxWidth := max_le h1 hsw
  have hH : max 1 (imgHeight * min (min (maxWidth / imgWidth) (maxHeight / imgHeight)) 1)
      ≤ maxHeight := max_le h2 hsh
  simp only [addImageToPDF.rect]
  refine ⟨?_, ?_, ?_, ?_⟩ <;> linarith

theorem addImageToPDF_ok (env : Env) (pdf pdf2 : Pdf) (imageData : Option Record)
    (x y maxWidth maxHeight : ℚ)
    (h : addImageToPDF env pdf imageData x y maxWidth maxHeight = .ok pdf2) :
    ∃ r w h, imageData = some r ∧ env.decode (sanitizeDataUrl r.src) = some (w, h) ∧
      pdf2 = pdf.addImage
        { image := r, rect := addImageToPDF.rect w h x y maxWidth maxHeight } := by
  unfold addImageToPDF at h
  cases imageData with
  | none => simp at h
  | some r =>
    simp only at h
    cases hd : env.decode (sanitizeDataUrl r.src) with
    | none => simp [hd] at h
    | some wh =>
      obtain ⟨w, hh⟩ := wh
      simp only [hd, Except.ok.injEq] at h
      exact ⟨r, w, hh, rfl, hd, h.symm⟩

/-- C4 as stated fails: in the slot `(0, 0, 100, 100)` an image of 1000 × 5
pixels has the scale factor 1/10, and it is drawn 100 × 1, not 100 × 1/2: the
height is raised to one point and the aspect ratio is not kept. -/
theorem addImageToPDF_rect_not_scaled :
    min (min ((100 : ℚ) / 1000) ((100 : ℚ) / 5)) 1 = 1 / 10 ∧
    addImageToPDF { cancelled := fun _ => false, decode := fun _ => some (1000, 5) } Pdf.new
        (some (sampleRecord "wide" 1000 5)) 0 0 100 100 =
      .ok (Pdf.new.addImage { image := sampleRecord "wide" 1000 5,
                              rect := { x := 0, y := 99 / 2, width := 100, height := 1 } }) ∧
    (1 : ℚ) ≠ 5 * (1 / 10) ∧ (100 : ℚ) * 5 ≠ 1 * 1000 := by
  refine ⟨by norm_num, ?_, by norm_num, by norm_num⟩
  simp only [addImageToPDF, addImageToPDF.rect]
  norm_num

/-- C4, amended: for an image of `w × h` pixels (both positive) and a slot
`(x, y, maxWidth, maxHeight)`, with `s = min(maxWidth/w, maxHeight/h, 1)`,
`addImageToPDF` embeds the image with size `(max(1, w*s), max(1, h*s))`,
centred in the slot (equal space left and right, above and below) and never
larger than its pixel size; when `w*s ≥ 1` and `h*s ≥ 1` the size is
`(w*s, h*s)` and the aspect ratio is kept. -/
theorem addImageToPDF_placement (env : Env) (pdf : Pdf) (r : Record) (w h : Nat)
    (x y maxWidth maxHeight : ℚ)
    (hdec : env.decode (sanitizeDataUrl r.src) = some (w, h)) (hw : 0 < w) (hh : 0 < h) :
    ∃ rect : Rect,
      addImageToPDF env pdf (some r) x y maxWidth maxHeight =
        .ok (pdf.addImage { image := r, rect := rect }) ∧
      rect.width = max 1 ((w : ℚ) * min (min (maxWidth / w) (maxHeight / h)) 1) ∧
      rect.height = max 1 ((h : ℚ) * min (min (maxWidth / w) (maxHeight / h)) 1) ∧
      rect.x = x + (maxWidth - rect.width) / 2 ∧
      rect.y = y + (maxHeight - rect.height) / 2 ∧
      rect.x - x = (x + maxWidth) - (rect.x + rect.width) ∧
      rect.y - y = (y + maxHeight) - (rect.y + rect.height) ∧
      rect.width ≤ w ∧ rect.height ≤ h ∧
      (1 ≤ (w : ℚ) * min (min (maxWidth / w) (maxHeight / h)) 1 →
        1 ≤ (h : ℚ) * min (min (maxWidth / w) (maxHeight / h)) 1 →
        rect.width = (w : ℚ) * min (min (maxWidth / w) (maxHeight / h)) 1 ∧
        rect.height = (h : ℚ) * min (min (maxWidth / w) (maxHeight / h)) 1 ∧
        rect.width * h = rect.height * w) := by
  have hw1 : (1 : ℚ) ≤ w := by exact_mod_cast hw
  have hh1 : (1 : ℚ) ≤ h := by exact_mod_cast hh
  have hs1 : min (min (maxWidth / (w : ℚ)) (maxHeight / (h : ℚ))) 1 ≤ 1 := min_le_right _ _
  refine ⟨addImageToPDF.rect w h x y maxWidth maxHeight, ?_, rfl, rfl, rfl, rfl, ?_, ?_, ?_, ?_, ?_⟩
  · simp only [addImageToPDF, hdec]
  · simp only [addImageToPDF.rect]; ring
  · simp only [addImageToPDF.rect]; ring
  · simp only [addImageToPDF.rect]
    refine max_le hw1 ?_
    calc (w : ℚ) * min (min (maxWidth / (w : ℚ)) (maxHeight / (h : ℚ))) 1
        ≤ (w : ℚ) * 1 := mul_le_mul_of_nonneg_left hs1 (by linarith)
      _ = w := mul_one _
  · simp only [addImageToPDF.rect]
    refine max_le hh1 ?_
    calc (h : ℚ) * min (min (maxWidth / (w : ℚ)) (maxHeight / (h : ℚ))) 1
        ≤ (h : ℚ) * 1 := mul_le_mul_of_nonneg_left hs1 (by linarith)
      _ = h := mul_one _
  · intro h1 h2
    simp only [addImageToPDF.rect]
    rw [max_eq_right h1, max_eq_right h2]
    refine ⟨rfl, rfl, ?_⟩
    ring

/-- C4, amended, at a 200 × 100 image in a 100 × 100 slot: drawn 100 × 50. -/
theorem addImageToPDF_placement_witness :
    (0 < 200 ∧ 0 < 100) ∧
    ∃ rect : Rect,
      addImageToPDF { cancelled := fun _ => false, decode := fun _ => some (200, 100) } Pdf.new
          (some (sampleRecord "a" 200 100)) 0 0 100 100 =
        .ok (Pdf.new.addImage { image := sampleRecord "a" 200 100, rect := rect }) ∧
      rect.width ≤ ((200 : Nat) : ℚ) ∧ rect.height ≤ ((100 : Nat) : ℚ) := by
  obtain ⟨rect, h1, _, _, _, _, _, _, h8, h9, _⟩ :=
    addImageToPDF_placement { cancelled := fun _ => false, decode := fun _ => some (200, 100) }
      Pdf.new (sampleRecord "a" 200 100) 200 100 0 0 100 100 rfl (by decide) (by decide)
  exact ⟨⟨by decide, by decide⟩, rect, h1, h8, h9⟩

/-! ## Placement of a page-group (C3) -/

/-- What a successful loop over the images of a page has embedded. -/
theorem processImagesForPage_loop_ok (env : Env) (X Y : Nat → ℚ) (W H : ℚ) :
    ∀ (images : List (Option Record)) (i : Nat) (pdf pdf2 : Pdf),
      processImagesForPage.loop
          (fun j image pdf1 => addImageToPDF env pdf1 image (X j) (Y j) W H) images i pdf =
        .ok pdf2 →
      pdf2.finished = pdf.finished ∧
      ∃ placed : List Placed, pdf2.current = pdf.current ++ placed ∧
        placed.map (fun p => some p.image) = images ∧
        ∀ p ∈ placed, ∃ j w h, i ≤ j ∧ j < i + images.length ∧
          env.decode (sanitizeDataUrl p.image.src) = some (w, h) ∧
          p.rect = addImageToPDF.rect w h (X j) (Y j) W H := by
  intro images
  induction images with
  | nil =>
    intro i pdf pdf2 h
    simp only [processImagesForPage.loop, Except.ok.injEq] at h
    subst h
    exact ⟨rfl, [], by simp, rfl, by simp⟩
  | cons image rest ih =>
    intro i pdf pdf2 h
    simp only [processImagesForPage.loop] at h
    cases hbody : addImageToPDF env pdf image (X i) (Y i) W H with
    | error e => simp [hbody] at h
    | ok pdf1 =>
      simp only [hbody] at h
      obtain ⟨r, w, hh, him, hdec, hpdf1⟩ := addImageToPDF_ok env pdf pdf1 image _ _ _ _ hbody
      obtain ⟨hfin, placed, hcur, hmap, hall⟩ := ih (i + 1) pdf1 pdf2 h
      subst hpdf1
      refine ⟨by rw [hfin]; rfl,
        { image := r, rect := addImageToPDF.rect w hh (X i) (Y i) W H } :: placed, ?_, ?_, ?_⟩
      · rw [hcur]; simp [Pdf.addImage]
      · simp [hmap, him]
      · intro p hp
        rcases List.mem_cons.mp hp with hp | hp
        · subst hp
          exact ⟨i, w, hh, le_refl _, by simp, hdec, rfl⟩
        · obtain ⟨j, w2, h2, hj1, hj2, hd2, hr2⟩ := hall p hp
          exact ⟨j, w2, h2, by omega, by simp only [List.length_cons]; omega, hd2, hr2⟩

/-- The loop over the images of a page succeeds when every image loads. -/
theorem processImagesForPage_loop_total (env : Env) (X Y : Nat → ℚ) (W H : ℚ) :
    ∀ (images : List (Option Record)) (i : Nat) (pdf : Pdf),
      (∀ image ∈ images, ∃ r w h, image = some r ∧
        env.decode (sanitizeDataUrl r.src) = some (w, h)) →
      ∃ pdf2, processImagesForPage.loop
          (fun j image pdf1 => addImageToPDF env pdf1 image (X j) (Y j) W H) images i pdf =
        .ok pdf2 := by
  intro images
  induction images with
  | nil => intro i pdf _; exact ⟨pdf, rfl⟩
  | cons image rest ih =>
    intro i pdf hall
    obtain ⟨r, w, h, him, hdec⟩ := hall image (List.mem_cons_self _ _)
    subst him
    simp only [processImagesForPage.loop, addImageToPDF, hdec]
    exact ih (i + 1) _ (fun im him => hall im (List.mem_cons_of_mem _ him))

/-- C3 as stated fails: on a portrait A4 page with a margin of 300 points and
one image per page, an image of 100 × 100 pixels is placed at
`x = 297.14 < margin`, and its right edge `298.14` lies beyond
`pageWidth - margin = 295.28`. -/
theorem processImagesForPage_outside_margins :
    generatePDF.pageGeometry { CONFIG.defaultSettings with margin := 300 } =
      (59528 / 100, 84189 / 100) ∧
    processImagesForPage { cancelled := fun _ => false, decode := fun _ => some (100, 100) }
        Pdf.new [some (sampleRecord "a" 100 100)] (59528 / 100) (84189 / 100) 300 1 =
      .ok (Pdf.new.addImage { image := sampleRecord "a" 100 100,
                              rect := { x := 14857 / 50, y := 84089 / 200,
                                        width := 1, height := 1 } }) ∧
    ¬ ((300 : ℚ) ≤ 14857 / 50) ∧
    ¬ ((14857 / 50 : ℚ) + 1 ≤ 59528 / 100 - 300) := by
  refine ⟨?_, ?_, by norm_num, by norm_num⟩
  · simp [generatePDF.pageGeometry, pageSizes, CONFIG.defaultSettings]
  · simp only [processImagesForPage, addImageToPDF, addImageToPDF.rect]
    norm_num

theorem processImagesForPage_one (env : Env) (pdf : Pdf) (images : List (Option Record))
    (pageWidth pageHeight margin : ℚ) :
    processImagesForPage env pdf images pageWidth pageHeight margin 1 =
      addImageToPDF env pdf (images[0]?).join margin margin
        (pageWidth - (2 * margin)) (pageHeight - (2 * margin)) := rfl

theorem processImagesForPage_two (env : Env) (pdf : Pdf) (images : List (Option Record))
    (pageWidth pageHeight margin : ℚ) :
    processImagesForPage env pdf images pageWidth pageHeight margin 2 =
      processImagesForPage.loop (fun j image pdf1 =>
        addImageToPDF env pdf1 image ((fun _ => margin) j)
          ((fun i : Nat => margin + ((i : ℚ) * (((pageHeight - (2 * margin)) / 2 - 5) + 10))) j)
          (pageWidth - (2 * margin)) ((pageHeight - (2 * margin)) / 2 - 5)) images 0 pdf := rfl

theorem processImagesForPage_four (env : Env) (pdf : Pdf) (images : List (Option Record))
    (pageWidth pageHeight margin : ℚ) :
    processImagesForPage env pdf images pageWidth pageHeight margin 4 =
      processImagesForPage.loop (fun j image pdf1 =>
        addImageToPDF env pdf1 image
          ((fun i : Nat => margin +
            (((i % 2 : Nat) : ℚ) * (((pageWidth - (2 * margin)) / 2 - 5) + 10))) j)
          ((fun i : Nat => margin +
            (((i / 2 : Nat) : ℚ) * (((pageHeight - (2 * margin)) / 2 - 5) + 10))) j)
          ((pageWidth - (2 * margin)) / 2 - 5) ((pageHeight - (2 * margin)) / 2 - 5))
        images 0 pdf := rfl

/-- C3, amended: for one, two or four images per page, a page-group of at
most that many images with positive pixel sizes, and a margin that leaves
every slot at least one point wide and one point high, every rectangle that
`processImagesForPage` embeds lies between the margins of the page. -/
theorem processImagesForPage_within_margins (env : Env) (pdf pdf2 : Pdf)
    (images : List (Option Record)) (pageWidth pageHeight margin : ℚ) (imagesPerPage : Int)
    (hk : imagesPerPage = 1 ∨ imagesPerPage = 2 ∨ imagesPerPage = 4)
    (hlen : (images.length : Int) ≤ imagesPerPage)
    (hpos : ∀ src w h, env.decode src = some (w, h) → 0 < w ∧ 0 < h)
    (hslotW : 1 ≤ (if imagesPerPage = 4 then (pageWidth - 2 * margin) / 2 - 5
      else pageWidth - 2 * margin))
    (hslotH : 1 ≤ (if imagesPerPage = 1 then pageHeight - 2 * margin
      else (pageHeight - 2 * margin) / 2 - 5))
    (hrun : processImagesForPage env pdf images pageWidth pageHeight margin imagesPerPage =
      .ok pdf2) :
    ∃ placed : List Placed, pdf2.current = pdf.current ++ placed ∧
      ∀ p ∈ placed,
        margin ≤ p.rect.x ∧ p.rect.x + p.rect.width ≤ pageWidth - margin ∧
        margin ≤ p.rect.y ∧ p.rect.y + p.rect.height ≤ pageHeight - margin := by
  rcases hk with hk | hk | hk
  · subst hk
    simp only [if_true, show ¬ ((1 : Int) = 4) by decide, if_false] at hslotW hslotH
    rw [processImagesForPage_one] at hrun
    obtain ⟨r, w, h, _, hdec, hpdf⟩ := addImageToPDF_ok env pdf pdf2 _ _ _ _ _ hrun
    obtain ⟨hw, hh⟩ := hpos _ w h hdec
    have hwq : (0 : ℚ) < w := by exact_mod_cast hw
    have hhq : (0 : ℚ) < h := by exact_mod_cast hh
    refine ⟨[{ image := r, rect := (addImageToPDF.rect w h margin margin
      (pageWidth - (2 * margin)) (pageHeight - (2 * margin))) }], by rw [hpdf]; rfl, ?_⟩
    intro p hp
    rw [List.mem_singleton] at hp
    subst hp
    obtain ⟨b1, b2, b3, b4⟩ := rect_inside_slot w h margin margin
      (pageWidth - (2 * margin)) (pageHeight - (2 * margin)) hwq hhq hslotW hslotH
    refine ⟨b1, ?_, b3, ?_⟩ <;> simp only at b2 b4 ⊢ <;> linarith
  · subst hk
    simp only [show ¬ ((2 : Int) = 4) by decide, show ¬ ((2 : Int) = 1) by decide,
      if_false] at hslotW hslotH
    rw [processImagesForPage_two] at hrun
    obtain ⟨_, placed, hcur, _, hall⟩ := processImagesForPage_loop_ok env _ _ _ _ images 0 pdf pdf2 hrun
    refine ⟨placed, hcur, ?_⟩
    intro p hp
    obtain ⟨j, w, h, _, hj, hdec, hrect⟩ := hall p hp
    obtain ⟨hw, hh⟩ := hpos _ w h hdec
    have hwq : (0 : ℚ) < w := by exact_mod_cast hw
    have hhq : (0 : ℚ) < h := by exact_mod_cast hh
    have hj2 : ((j : Nat) : ℚ) ≤ 1 := by
      have : j ≤ 1 := by omega
      exact_mod_cast this
    have hj0 : (0 : ℚ) ≤ ((j : Nat) : ℚ) := Nat.cast_nonneg _
    rw [hrect]
    obtain ⟨b1, b2, b3, b4⟩ := rect_inside_slot w h margin
      (margin + ((j : ℚ) * (((pageHeight - (2 * margin)) / 2 - 5) + 10)))
      (pageWidth - (2 * margin)) ((pageHeight - (2 * margin)) / 2 - 5) hwq hhq hslotW hslotH
    generalize addImageToPDF.rect w h margin
      (margin + ((j : ℚ) * (((pageHeight - (2 * margin)) / 2 - 5) + 10)))
      (pageWidth - (2 * margin)) ((pageHeight - (2 * margin)) / 2 - 5) = R at b1 b2 b3 b4 ⊢
    have ht0 : 0 ≤ (j : ℚ) * (((pageHeight - (2 * margin)) / 2 - 5) + 10) :=
      mul_nonneg hj0 (by linarith)
    have ht1 : (j : ℚ) * (((pageHeight - (2 * margin)) / 2 - 5) + 10) ≤
        ((pageHeight - (2 * margin)) / 2 - 5) + 10 :=
      mul_le_of_le_one_left (by linarith) hj2
    refine ⟨b1, ?_, ?_, ?_⟩ <;> linarith
  · subst hk
    simp only [if_true, show ¬ ((4 : Int) = 1) by decide, if_false] at hslotW hslotH
    rw [processImagesForPage_four] at hrun
    obtain ⟨_, placed, hcur, _, hall⟩ := processImagesForPage_loop_ok env _ _ _ _ images 0 pdf pdf2 hrun
    refine ⟨placed, hcur, ?_⟩
    intro p hp
    obtain ⟨j, w, h, _, hj, hdec, hrect⟩ := hall p hp
    obtain ⟨hw, hh⟩ := hpos _ w h hdec
    have hwq : (0 : ℚ) < w := by exact_mod_cast hw
    have hhq : (0 : ℚ) < h := by exact_mod_cast hh
    have hc1 : (((j % 2 : Nat) : Nat) : ℚ) ≤ 1 := by
      have : j % 2 ≤ 1 := by omega
      exact_mod_cast this
    have hc0 : (0 : ℚ) ≤ ((j % 2 : Nat) : ℚ) := Nat.cast_nonneg _
    have hr1 : (((j / 2 : Nat) : Nat) : ℚ) ≤ 1 := by
      have : j / 2 ≤ 1 := by omega
      exact_mod_cast this
    have hr0 : (0 : ℚ) ≤ ((j / 2 : Nat) : ℚ) := Nat.cast_nonneg _
    rw [hrect]
    obtain ⟨b1, b2, b3, b4⟩ := rect_inside_slot w h
      (margin + (((j % 2 : Nat) : ℚ) * (((pageWidth - (2 * margin)) / 2 - 5) + 10)))
      (margin + (((j / 2 : Nat) : ℚ) * (((pageHeight - (2 * margin)) / 2 - 5) + 10)))
      ((pageWidth - (2 * margin)) / 2 - 5) ((pageHeight - (2 * margin)) / 2 - 5)
      hwq hhq hslotW hslotH
    generalize addImageToPDF.rect w h
      (margin + (((j % 2 : Nat) : ℚ) * (((pageWidth - (2 * margin)) / 2 - 5) + 10)))
      (margin + (((j / 2 : Nat) : ℚ) * (((pageHeight - (2 * margin)) / 2 - 5) + 10)))
      ((pageWidth - (2 * margin)) / 2 - 5) ((pageHeight - (2 * margin)) / 2 - 5) = R
      at b1 b2 b3 b4 ⊢
    have hx0 : 0 ≤ ((j % 2 : Nat) : ℚ) * (((pageWidth - (2 * margin)) / 2 - 5) + 10) :=
      mul_nonneg hc0 (by linarith)
    have hx1 : ((j % 2 : Nat) : ℚ) * (((pageWidth - (2 * margin)) / 2 - 5) + 10) ≤
        ((pageWidth - (2 * margin)) / 2 - 5) + 10 :=
      mul_le_of_le_one_left (by linarith) hc1
    have hy0 : 0 ≤ ((j / 2 : Nat) : ℚ) * (((pageHeight - (2 * margin)) / 2 - 5) + 10) :=
      mul_nonneg hr0 (by linarith)
    have hy1 : ((j / 2 : Nat) : ℚ) * (((pageHeight - (2 * margin)) / 2 - 5) + 10) ≤
        ((pageHeight - (2 * margin)) / 2 - 5) + 10 :=
      mul_le_of_le_one_left (by linarith) hr1
    refine ⟨?_, ?_, ?_, ?_⟩ <;> linarith

/-! ## The page loop when nothing is cancelled and every page succeeds -/

theorem slice_nat {α : Type} (l : List α) (i k : Nat) (hi : i ≤ l.length) :
    slice l (i : Int) ((i : Int) + (k : Int)) = (l.drop i).take k := by
  unfold slice
  have h1 : ¬ ((i : Int) < 0) := by omega
  have h2 : ¬ ((i : Int) + (k : Int) < 0) := by omega
  have e1 : (min (i : Int) (l.length : Int)).toNat = i := by
    rw [min_eq_left (by omega)]; simp
  have e2 : (min ((i : Int) + k) (l.length : Int) - min (i : Int) (l.length : Int)).toNat
      = min k (l.length - i) := by omega
  simp only [h1, h2, if_false, e1, e2]
  rw [List.take_eq_take]
  simp

theorem pageLoop_step (env : Env) (st : State) (pageWidth pageHeight : ℚ) (fuel : Nat)
    (i : Int) (pageCount : Nat) (pdf pdf2 : Pdf)
    (hlt : i < (st.uploadedImages.length : Int)) (hc : env.cancelled pageCount = false)
    (hproc : processImagesForPage env (if pageCount > 0 then pdf.addPage else pdf)
      (slice st.uploadedImages i (i + st.settings.imagesPerPage)) pageWidth pageHeight
      st.settings.margin st.settings.imagesPerPage = .ok pdf2)
    (hlib : env.jsPDF.handles st.settings.orientation st.settings.pageSize) :
    generatePDF.pageLoop env st pageWidth pageHeight (fuel + 1) i pageCount pdf =
      (generatePDF.pageLoop env st pageWidth pageHeight fuel (i + st.settings.imagesPerPage)
        (pageCount + 1) pdf2).map
        (fun r => { r with trace := generatePDF.progress st i pageCount :: r.trace }) := by
  rw [generatePDF.pageLoop]
  simp only [hlt, if_true, hc, hlib.2.1, hlib.2.2.1, Bool.true_eq_false, and_false, if_false,
    Bool.false_eq_true, hproc]

theorem ceil_step (n i k : Nat) (hk : 0 < k) (hi : i < n) :
    (n - i + k - 1) / k = (n - (i + k) + k - 1) / k + 1 := by
  by_cases h : i + k ≤ n
  · have : n - i + k - 1 = (n - (i + k) + k - 1) + k := by omega
    rw [this, Nat.add_div_right _ hk]
  · have h1 : n - (i + k) + k - 1 < k := by omega
    rw [Nat.div_eq_of_lt h1]
    have h2 : n - i + k - 1 = (n - i - 1) + k := by omega
    rw [h2, Nat.add_div_right _ hk, Nat.div_eq_of_lt (by omega)]

/-- The page loop from a page boundary `i`, after at least one page, when no
check reads the flag set, the library handles the document of the settings
and every page-group is processed successfully,
adding the page `page` with `Q i page`: the loop ends, and it has added one
page for each of the remaining `⌈(n - i) / k⌉` groups. -/
theorem pageLoop_pages (env : Env) (st : State) (pageWidth pageHeight : ℚ) (k : Nat)
    (hk : st.settings.imagesPerPage = (k : Int)) (hkpos : 0 < k)
    (hcancel : ∀ p, env.cancelled p = false)
    (hlib : env.jsPDF.handles st.settings.orientation st.settings.pageSize)
    (Q : Nat → List Placed → Prop)
    (hproc : ∀ (pdf : Pdf) (i : Nat), i < st.uploadedImages.length →
      ∃ page, processImagesForPage env pdf ((st.uploadedImages.drop i).take k)
          pageWidth pageHeight st.settings.margin (k : Int) =
        .ok { finished := pdf.finished, current := pdf.current ++ page } ∧ Q i page)
    (fuel : Nat) :
    ∀ (i pageCount : Nat) (pdf : Pdf), 0 < pageCount → st.uploadedImages.length - i ≤ fuel →
      ∃ (loop : Loop) (doc : Pdf) (added : List (List Placed)),
        generatePDF.pageLoop env st pageWidth pageHeight fuel (i : Int) pageCount pdf =
          some loop ∧
        loop.result = .ok doc ∧
        loop.pageCount = pageCount + added.length ∧
        doc.pages = pdf.pages ++ added ∧
        added.length = (st.uploadedImages.length - i + k - 1) / k ∧
        ∀ j (hj : j < added.length), Q (i + j * k) (added[j]) := by
  induction fuel with
  | zero =>
    intro i pageCount pdf _ hf
    have hge : ¬ ((i : Int) < (st.uploadedImages.length : Int)) := by omega
    refine ⟨_, pdf, [], pageLoop_done env st _ _ 0 _ _ _ hge, rfl, rfl, by simp, ?_, ?_⟩
    · have : st.uploadedImages.length - i + k - 1 < k := by omega
      simp [Nat.div_eq_of_lt this]
    · intro j hj; simp at hj
  | succ fuel ih =>
    intro i pageCount pdf hpc hf
    by_cases hlt : i < st.uploadedImages.length
    · have hlt2 : (i : Int) < (st.uploadedImages.length : Int) := by omega
      obtain ⟨page, hpage, hQ⟩ := hproc pdf.addPage i hlt
      have hslice : slice st.uploadedImages (i : Int) ((i : Int) + st.settings.imagesPerPage) =
          (st.uploadedImages.drop i).take k := by
        rw [hk]; exact slice_nat _ i k (le_of_lt hlt)
      have hstep := pageLoop_step env st pageWidth pageHeight fuel (i : Int) pageCount pdf
        { finished := pdf.addPage.finished, current := pdf.addPage.current ++ page } hlt2
        (hcancel pageCount) (by rw [hslice, hk, if_pos hpc]; exact hpage) hlib
      obtain ⟨loop, doc, added, hloop, hres, hcount, hpages, hlen, hall⟩ :=
        ih (i + k) (pageCount + 1)
          { finished := pdf.addPage.finished, current := pdf.addPage.current ++ page }
          (Nat.succ_pos _) (by omega)
      have hik : (i : Int) + st.settings.imagesPerPage = ((i + k : Nat) : Int) := by
        rw [hk]; push_cast; rfl
      rw [hik, hloop] at hstep
      refine ⟨_, doc, page :: added, hstep, hres, ?_, ?_, ?_, ?_⟩
      · simp only [hcount, List.length_cons]; omega
      · rw [hpages]; simp [Pdf.pages, Pdf.addPage]
      · rw [List.length_cons, hlen]; exact (ceil_step _ i k hkpos hlt).symm
      · intro j hj
        cases j with
        | zero => simpa using hQ
        | succ j =>
          have hj2 : j < added.length := by simpa using hj
          have := hall j hj2
          have he : i + k + j * k = i + (j + 1) * k := by ring
          rw [he] at this
          simpa using this
    · have hge : ¬ ((i : Int) < (st.uploadedImages.length : Int)) := by omega
      refine ⟨_, pdf, [], pageLoop_done env st _ _ _ _ _ _ hge, rfl, rfl, by simp, ?_, ?_⟩
      · have : st.uploadedImages.length - i + k - 1 < k := by omega
        simp [Nat.div_eq_of_lt this]
      · intro j hj; simp at hj

theorem outputs_append (a b : List Event) : outputs (a ++ b) = outputs a ++ outputs b := by
  induction a with
  | nil => rfl
  | cons ev rest ih =>
    cases ev <;> simp [outputs, ih]

theorem outputs_of_not_emits (tr : List Event) (h : ∀ ev ∈ tr, ev.emits = false) :
    outputs tr = [] := by
  induction tr with
  | nil => rfl
  | cons ev rest ih =>
    have hrest := ih (fun e he => h e (List.mem_cons_of_mem _ he))
    have hev := h ev (List.mem_cons_self _ _)
    cases ev <;> simp_all [outputs, Event.emits]

/-- A run in which no check reads the flag set, the library handles the
document of the settings, and every page-group is processed successfully,
adding a page `page` with `Q i page` for the group that starts at index `i`:
with fuel for `n` pages the run completes, emits
exactly one document, and this document has `⌈n / k⌉` pages, the `j`-th of
which satisfies `Q (j * k)`. -/
theorem generatePDF_completes (env : Env) (st : State) (k : Nat)
    (hk : st.settings.imagesPerPage = (k : Int)) (hkpos : 0 < k)
    (hne : st.uploadedImages ≠ [])
    (hcancel : ∀ p, env.cancelled p = false)
    (hlib : env.jsPDF.handles st.settings.orientation st.settings.pageSize)
    (Q : Nat → List Placed → Prop)
    (hproc : ∀ (pdf : Pdf) (i : Nat), i < st.uploadedImages.length →
      ∃ page, processImagesForPage env pdf ((st.uploadedImages.drop i).take k)
          (generatePDF.pageGeometry st.settings).1 (generatePDF.pageGeometry st.settings).2
          st.settings.margin (k : Int) =
        .ok { finished := pdf.finished, current := pdf.current ++ page } ∧ Q i page)
    (fuel : Nat) (hfuel : st.uploadedImages.length ≤ fuel) :
    ∃ (run : Run) (doc : Pdf), generatePDF env st fuel = some run ∧
      outputs run.trace = [doc] ∧
      run.state.uploadedImages = st.uploadedImages ∧
      doc.pages.length = (st.uploadedImages.length + k - 1) / k ∧
      ∀ j (hj : j < doc.pages.length), Q (j * k) (doc.pages[j]) := by
  have hlen : 0 < st.uploadedImages.length := List.length_pos.mpr hne
  have hlen0 : ¬ (st.uploadedImages.length = 0) := by omega
  obtain ⟨fuel, rfl⟩ : ∃ f, fuel = f + 1 := ⟨fuel - 1, by omega⟩
  obtain ⟨page0, hpage0, hQ0⟩ := hproc Pdf.new 0 hlen
  have hslice : slice st.uploadedImages ((0 : Nat) : Int)
      (((0 : Nat) : Int) + st.settings.imagesPerPage) = (st.uploadedImages.drop 0).take k := by
    rw [hk]; exact slice_nat _ 0 k (Nat.zero_le _)
  have hstep := pageLoop_step env { st with operationCancelled := false }
    (generatePDF.pageGeometry st.settings).1 (generatePDF.pageGeometry st.settings).2 fuel
    ((0 : Nat) : Int) 0 Pdf.new
    { finished := Pdf.new.finished, current := Pdf.new.current ++ page0 }
    (by simpa using hlen) (hcancel 0)
    (by
      have h0 : ¬ (0 > 0) := by omega
      rw [if_neg h0]
      show processImagesForPage env Pdf.new (slice st.uploadedImages ((0 : Nat) : Int)
        (((0 : Nat) : Int) + st.settings.imagesPerPage)) _ _ st.settings.margin
        st.settings.imagesPerPage = _
      rw [hslice, hk]; exact hpage0)
    hlib
  obtain ⟨loop, doc, added, hloop, hres, hcount, hpages, hlenA, hall⟩ :=
    pageLoop_pages env { st with operationCancelled := false }
      (generatePDF.pageGeometry st.settings).1 (generatePDF.pageGeometry st.settings).2 k hk hkpos
      hcancel hlib Q hproc fuel (0 + k) 1
      { finished := Pdf.new.finished, current := Pdf.new.current ++ page0 }
      (by omega) (by show st.uploadedImages.length - (0 + k) ≤ fuel; omega)
  have hik : ((0 : Nat) : Int) + st.settings.imagesPerPage = ((0 + k : Nat) : Int) := by
    rw [hk]; push_cast; rfl
  have hstep2 : generatePDF.pageLoop env { st with operationCancelled := false }
      (generatePDF.pageGeometry st.settings).1 (generatePDF.pageGeometry st.settings).2
      (fuel + 1) 0 0 Pdf.new =
      some { loop with
        trace := generatePDF.progress { st with operationCancelled := false } 0 0 :: loop.trace } := by
    have := hstep
    rw [show ((0 : Nat) : Int) + ({ st with operationCancelled := false } : State).settings.imagesPerPage
      = ((0 + k : Nat) : Int) from hik, hloop] at this
    simpa using this
  have htr : ∀ ev ∈ loop.trace, ev.emits = false := by
    intro ev hev
    obtain ⟨_, _, _, h⟩ := pageLoop_trace env _ _ _ fuel _ _ _ loop hloop ev hev
    rw [h]; rfl
  have hout : outputs loop.trace = [] := outputs_of_not_emits _ htr
  have hpc : env.cancelled loop.pageCount = false := hcancel _
  have hcreate : env.jsPDF.create ({ st with operationCancelled := false } : State).settings.orientation
      ({ st with operationCancelled := false } : State).settings.pageSize = true := hlib.1
  have houtput : env.jsPDF.output ({ st with operationCancelled := false } : State).settings.orientation
      ({ st with operationCancelled := false } : State).settings.pageSize = true := hlib.2.2.2
  unfold generatePDF
  simp only [hlen0, if_false, hcreate, houtput, Bool.true_eq_false, hstep2, hres, hpc,
    Bool.false_eq_true]
  refine ⟨_, doc, rfl, ?_, rfl, ?_, ?_⟩
  · simp [outputs_append, outputs, hout, generatePDF.progress]
  · rw [hpages]
    simp only [Pdf.pages, Pdf.new, List.nil_append, List.length_append, List.length_singleton,
      List.length_cons, List.length_nil, hlenA]
    have := ceil_step st.uploadedImages.length 0 k hkpos hlen
    simp only [Nat.sub_zero] at this
    omega
  · intro j hj
    have hpg : doc.pages = page0 :: added := by
      rw [hpages]; simp [Pdf.pages, Pdf.new]
    have hj2 : j < (page0 :: added).length := by rw [← hpg]; exact hj
    have hget : doc.pages[j] = (page0 :: added)[j] := by
      simp only [hpg]
    rw [hget]
    cases j with
    | zero => simpa using hQ0
    | succ j =>
      have hj3 : j < added.length := by simpa using hj2
      have := hall j hj3
      have he : 0 + k + j * k = (j + 1) * k := by ring
      rw [he] at this
      simpa using this

/-! ## Pagination (C2) -/

theorem flatten_of_chunks {β : Type} (k : Nat) :
    ∀ (L : List (List β)) (l : List β),
      (∀ j (hj : j < L.length), L[j] = (l.drop (j * k)).take k) →
      l.length ≤ L.length * k → L.flatten = l := by
  intro L
  induction L with
  | nil =>
    intro l _ hlen
    have : l.length = 0 := by simpa using hlen
    simp [List.length_eq_zero.mp this]
  | cons a L ih =>
    intro l hall hlen
    have ha : a = l.take k := by
      have := hall 0 (by simp)
      simpa using this
    have hrest : L.flatten = l.drop k := by
      apply ih
      · intro j hj
        have := hall (j + 1) (by simpa using hj)
        simp only [List.getElem_cons_succ] at this
        rw [this, List.drop_drop]
        congr 2
        ring
      · simp only [List.length_cons, List.length_drop] at hlen ⊢
        have : (L.length + 1) * k = L.length * k + k := by ring
        omega
    rw [List.flatten_cons, ha, hrest, List.take_append_drop]

/-- With one, two or four images per page, a page-group all of whose images
load is embedded completely and in order. -/
theorem processImagesForPage_group (env : Env) (pdf : Pdf) (images : List (Option Record))
    (pageWidth pageHeight margin : ℚ) (k : Nat) (hk : k = 1 ∨ k = 2 ∨ k = 4)
    (hne : images ≠ []) (hlen : images.length ≤ k)
    (hdec : ∀ image ∈ images, ∃ r w h, image = some r ∧
      env.decode (sanitizeDataUrl r.src) = some (w, h)) :
    ∃ page, processImagesForPage env pdf images pageWidth pageHeight margin (k : Int) =
        .ok { finished := pdf.finished, current := pdf.current ++ page } ∧
      page.map (fun p => some p.image) = images := by
  rcases hk with hk | hk | hk
  · subst hk
    obtain ⟨image, rfl⟩ : ∃ image, images = [image] := by
      cases images with
      | nil => exact absurd rfl hne
      | cons a rest =>
        have : rest = [] := by
          have h1 : rest.length = 0 := by simpa using hlen
          exact List.length_eq_zero.mp h1
        exact ⟨a, by rw [this]⟩
    obtain ⟨r, w, h, rfl, hd⟩ := hdec image (List.mem_singleton_self _)
    refine ⟨[{ image := r, rect := (addImageToPDF.rect w h margin margin
      (pageWidth - (2 * margin)) (pageHeight - (2 * margin))) }], ?_, rfl⟩
    show processImagesForPage env pdf [some r] pageWidth pageHeight margin 1 = _
    rw [processImagesForPage_one]
    simp [addImageToPDF, hd, Pdf.addImage]
  · subst hk
    show (∃ page, processImagesForPage env pdf images pageWidth pageHeight margin 2 = _ ∧ _)
    rw [processImagesForPage_two]
    obtain ⟨pdf2, hrun⟩ := processImagesForPage_loop_total env _ _ _ _ images 0 pdf hdec
    obtain ⟨hfin, placed, hcur, hmap, _⟩ := processImagesForPage_loop_ok env _ _ _ _ images 0 pdf
      pdf2 hrun
    refine ⟨placed, ?_, hmap⟩
    rw [hrun]
    cases pdf2
    simp only at hfin hcur
    rw [hfin, hcur]
  · subst hk
    show (∃ page, processImagesForPage env pdf images pageWidth pageHeight margin 4 = _ ∧ _)
    rw [processImagesForPage_four]
    obtain ⟨pdf2, hrun⟩ := processImagesForPage_loop_total env _ _ _ _ images 0 pdf hdec
    obtain ⟨hfin, placed, hcur, hmap, _⟩ := processImagesForPage_loop_ok env _ _ _ _ images 0 pdf
      pdf2 hrun
    refine ⟨placed, ?_, hmap⟩
    rw [hrun]
    cases pdf2
    simp only at hfin hcur
    rw [hfin, hcur]

/-- C2: for a non-empty collection of `n` images that all load,
`imagesPerPage = k` in {1, 2, 4}, a page size of the page-size table (`a4`,
`letter`, `legal`, `a3`), an orientation `portrait` or `landscape`, and a
jsPDF library that handles these page sizes and orientations, a run that is
not cancelled completes (with fuel for `n` pages) and emits one document; it
has `⌈n / k⌉` pages, the images of its pages, concatenated in page order, are
the collection in its order, every page but the last has exactly `k` images,
and the last has between one and `k`. -/
theorem generatePDF_pages (env : Env) (st : State) (k : Nat)
    (hk : k = 1 ∨ k = 2 ∨ k = 4) (hset : st.settings.imagesPerPage = (k : Int))
    (hsize : st.settings.pageSize = "a4" ∨ st.settings.pageSize = "letter" ∨
      st.settings.pageSize = "legal" ∨ st.settings.pageSize = "a3")
    (horient : st.settings.orientation = "portrait" ∨ st.settings.orientation = "landscape")
    (hlib : ∀ orientation format : String,
      (orientation = "portrait" ∨ orientation = "landscape") →
      (format = "a4" ∨ format = "letter" ∨ format = "legal" ∨ format = "a3") →
      env.jsPDF.handles orientation format)
    (hne : st.uploadedImages ≠ [])
    (hcancel : ∀ p, env.cancelled p = false)
    (hdec : ∀ image ∈ st.uploadedImages, ∃ r w h, image = some r ∧
      env.decode (sanitizeDataUrl r.src) = some (w, h))
    (fuel : Nat) (hfuel : st.uploadedImages.length ≤ fuel) :
    ∃ (run : Run) (doc : Pdf), generatePDF env st fuel = some run ∧
      outputs run.trace = [doc] ∧
      doc.pages.length = (st.uploadedImages.length + k - 1) / k ∧
      (doc.pages.map (fun page => page.map (fun p => some p.image))).flatten =
        st.uploadedImages ∧
      (∀ j (hj : j < doc.pages.length), j + 1 < doc.pages.length →
        (doc.pages[j]).length = k) ∧
      (∀ j (hj : j < doc.pages.length), j + 1 = doc.pages.length →
        1 ≤ (doc.pages[j]).length ∧ (doc.pages[j]).length ≤ k) := by
  have hkpos : 0 < k := by omega
  obtain ⟨run, doc, hrun, hout, _, hlen, hall⟩ := generatePDF_completes env st k hset hkpos hne
    hcancel (hlib _ _ horient hsize)
    (fun i page => page.map (fun p => some p.image) = (st.uploadedImages.drop i).take k)
    (by
      intro pdf i hi
      apply processImagesForPage_group env pdf _ _ _ _ k hk
      · intro h
        have h2 := congrArg List.length h
        simp only [List.length_take, List.length_drop, List.length_nil] at h2
        omega
      · simp only [List.length_take]; omega
      · intro image him
        exact hdec image (List.mem_of_mem_drop (List.mem_of_mem_take him)))
    fuel hfuel
  have hsize : ∀ j (hj : j < doc.pages.length),
      (doc.pages[j]).length = min k (st.uploadedImages.length - j * k) := by
    intro j hj
    have := congrArg List.length (hall j hj)
    simpa using this
  have hP : ∀ j, j < doc.pages.length → (j + 1) * k ≤ st.uploadedImages.length + k - 1 := by
    intro j hj
    rw [hlen] at hj
    exact (Nat.le_div_iff_mul_le hkpos).mp hj
  refine ⟨run, doc, hrun, hout, hlen, ?_, ?_, ?_⟩
  · apply flatten_of_chunks k
    · intro j hj
      have hj2 : j < doc.pages.length := by simpa using hj
      simpa using hall j hj2
    · simp only [List.length_map, hlen]
      have := Nat.lt_div_mul_add (a := st.uploadedImages.length + k - 1) hkpos
      omega
  · intro j hj hj1
    rw [hsize j hj]
    have h1 := hP (j + 1) hj1
    have h2 : (j + 1 + 1) * k = j * k + 2 * k := by ring
    omega
  · intro j hj _
    rw [hsize j hj]
    have h1 := hP j hj
    have h2 : (j + 1) * k = j * k + k := by ring
    omega

theorem sampleEnv_decodes (images : List Record) :
    ∀ image ∈ (images.map some : List (Option Record)), ∃ r w h, image = some r ∧
      sampleEnv.decode (sanitizeDataUrl r.src) = some (w, h) := by
  intro image him
  obtain ⟨r, _, rfl⟩ := List.mem_map.mp him
  exact ⟨r, 100, 50, rfl, rfl⟩

/-- C2 at the scenarios of the design document: three images give two pages
(of two images, then one) at two images per page, and three pages at one
image per page. -/
theorem generatePDF_pages_witness :
    (stateWith threeImages 2).settings.pageSize = "a4" ∧
    (stateWith threeImages 2).settings.orientation = "portrait" ∧
    (∀ orientation format : String,
      (orientation = "portrait" ∨ orientation = "landscape") →
      (format = "a4" ∨ format = "letter" ∨ format = "legal" ∨ format = "a3") →
      sampleEnv.jsPDF.handles orientation format) ∧
    (stateWith threeImages 2).uploadedImages ≠ [] ∧
    (stateWith threeImages 2).uploadedImages.length ≤ 3 ∧
    (∃ (run : Run) (doc : Pdf), generatePDF sampleEnv (stateWith threeImages 2) 3 = some run ∧
      outputs run.trace = [doc] ∧ doc.pages.length = 2) ∧
    (generatePDF sampleEnv (stateWith threeImages 2) 3).map
      (fun r => (outputs r.trace).map (fun d => d.pages.map List.length)) = some [[2, 1]] ∧
    (generatePDF sampleEnv (stateWith threeImages 1) 3).map
      (fun r => (outputs r.trace).map (fun d => d.pages.map List.length)) = some [[1, 1, 1]] := by
  have hlib : ∀ orientation format : String,
      (orientation = "portrait" ∨ orientation = "landscape") →
      (format = "a4" ∨ format = "letter" ∨ format = "legal" ∨ format = "a3") →
      sampleEnv.jsPDF.handles orientation format := by
    intro orientation format _ hf
    rcases hf with rfl | rfl | rfl | rfl <;> exact ⟨rfl, rfl, rfl, rfl⟩
  obtain ⟨run, doc, h1, h2, h3, _⟩ := generatePDF_pages sampleEnv (stateWith threeImages 2) 2
    (by decide) rfl (Or.inl rfl) (Or.inl rfl) hlib
    (by decide) (fun _ => rfl) (sampleEnv_decodes threeImages) 3 (by decide)
  exact ⟨rfl, rfl, hlib, by decide, by decide, ⟨run, doc, h1, h2, h3⟩, by decide, by decide⟩

theorem sample_page_run :
    processImagesForPage sampleEnv Pdf.new [some (sampleRecord "a" 100 50)]
        (59528 / 100) (84189 / 100) 20 1 =
      .ok (Pdf.new.addImage { image := sampleRecord "a" 100 50,
                              rect := { x := 6191 / 25, y := 79189 / 200,
                                        width := 100, height := 50 } }) := by
  simp only [processImagesForPage, addImageToPDF, addImageToPDF.rect, sampleEnv]
  norm_num

/-- C3, amended, on a portrait A4 page with the default margin of 20 points
and one image per page. -/
theorem processImagesForPage_within_margins_witness :
    ((1 : ℚ) ≤ 59528 / 100 - 2 * 20 ∧ (1 : ℚ) ≤ 84189 / 100 - 2 * 20) ∧
    ∃ placed : List Placed,
      (Pdf.new.addImage { image := sampleRecord "a" 100 50,
                          rect := { x := 6191 / 25, y := 79189 / 200,
                                    width := 100, height := 50 } }).current =
        Pdf.new.current ++ placed ∧
      ∀ p ∈ placed,
        (20 : ℚ) ≤ p.rect.x ∧ p.rect.x + p.rect.width ≤ 59528 / 100 - 20 ∧
        (20 : ℚ) ≤ p.rect.y ∧ p.rect.y + p.rect.height ≤ 84189 / 100 - 20 :=
  ⟨⟨by norm_num, by norm_num⟩,
    processImagesForPage_within_margins sampleEnv Pdf.new _ [some (sampleRecord "a" 100 50)]
      (59528 / 100) (84189 / 100) 20 1 (Or.inl rfl) (by decide)
      (by
        intro src w h hd
        simp only [sampleEnv, Option.some.injEq, Prod.mk.injEq] at hd
        omega)
      (by norm_num) (by norm_num) sample_page_run⟩

/-- C7 at the scenario of the design document: cancelling after page 1 of 3
yields no document. -/
theorem generatePDF_cancelled_witness :
    (stateWith threeImages 1).uploadedImages ≠ [] ∧
    cancelAfterFirstPage.cancelled 1 = true ∧
    ∃ run, generatePDF cancelAfterFirstPage (stateWith threeImages 1) 3 = some run ∧
      (∀ pdf, Event.output pdf ∉ run.trace) ∧
      Event.preview ∉ run.trace ∧
      (∀ filename, Event.download filename ∉ run.trace) ∧
      run.state.uploadedImages = (stateWith threeImages 1).uploadedImages :=
  ⟨by decide, rfl,
    generatePDF_cancelled cancelAfterFirstPage (stateWith threeImages 1) 1 3 (by decide) rfl
      (Or.inr (by decide)) (by decide)⟩

/-! ## Unsupported densities (C8) -/

theorem processImagesForPage_no_branch (env : Env) (pdf : Pdf) (images : List (Option Record))
    (pageWidth pageHeight margin : ℚ) (k : Int) (h1 : k ≠ 1) (h2 : k ≠ 2) (h4 : k ≠ 4) :
    processImagesForPage env pdf images pageWidth pageHeight margin k = .ok pdf := by
  simp [processImagesForPage, h1, h2, h4]

/-- With `imagesPerPage ≤ 0` the loop variable never reaches the length: when
no check reads the flag set and `pdf.addPage` does not throw, the loop is
still running after any number of iterations. -/
theorem pageLoop_never_ends (env : Env) (st : State) (pageWidth pageHeight : ℚ)
    (hk : st.settings.imagesPerPage ≤ 0)
    (hcancel : ∀ p, env.cancelled p = false)
    (hadd : env.jsPDF.addPage st.settings.orientation st.settings.pageSize = true)
    (fuel : Nat) :
    ∀ (i : Int) (pageCount : Nat) (pdf : Pdf), i < (st.uploadedImages.length : Int) →
      generatePDF.pageLoop env st pageWidth pageHeight fuel i pageCount pdf = none := by
  induction fuel with
  | zero =>
    intro i pageCount pdf hlt
    simp [generatePDF.pageLoop, hlt]
  | succ fuel ih =>
    intro i pageCount pdf hlt
    have h1 : st.settings.imagesPerPage ≠ 1 := by omega
    have h2 : st.settings.imagesPerPage ≠ 2 := by omega
    have h4 : st.settings.imagesPerPage ≠ 4 := by omega
    rw [generatePDF.pageLoop]
    simp only [hlt, if_true, hcancel, hadd, Bool.false_eq_true, Bool.true_eq_false, and_false,
      if_false, processImagesForPage_no_branch env _ _ _ _ _ _ h1 h2 h4, lt_irrefl, false_and,
      ih (i + st.settings.imagesPerPage) (pageCount + 1) _ (by omega), Option.map_none']

/-- With `imagesPerPage ≤ 0`, a run on a non-empty collection that is not
cancelled, on a library that creates the document and adds pages, does not
end. -/
theorem generatePDF_never_ends (env : Env) (st : State)
    (hk : st.settings.imagesPerPage ≤ 0) (hne : st.uploadedImages ≠ [])
    (hcancel : ∀ p, env.cancelled p = false)
    (hcreate : env.jsPDF.create st.settings.orientation st.settings.pageSize = true)
    (hadd : env.jsPDF.addPage st.settings.orientation st.settings.pageSize = true)
    (fuel : Nat) : generatePDF env st fuel = none := by
  have hlen : 0 < st.uploadedImages.length := List.length_pos.mpr hne
  have hlen0 : ¬ (st.uploadedImages.length = 0) := by omega
  have hloop := pageLoop_never_ends env { st with operationCancelled := false }
    (generatePDF.pageGeometry st.settings).1 (generatePDF.pageGeometry st.settings).2
    hk hcancel hadd fuel 0 0 Pdf.new (by exact_mod_cast hlen)
  unfold generatePDF
  simp only [hlen0, if_false, hcreate, Bool.true_eq_false, hloop]

/-- C8 fails on the code: with four images and `imagesPerPage = 3` nothing is
rejected; the run announces `Images 1-3 of 4`, adds a second page, places no
image, emits a document of two blank pages and reports success.  With
`imagesPerPage = 0` the request is not rejected either: the loop variable
does not advance and the run does not end, whatever the fuel. -/
theorem generatePDF_density_three_not_rejected :
    (3 : Int) ≠ 1 ∧ (3 : Int) ≠ 2 ∧ (3 : Int) ≠ 4 ∧
    (generatePDF sampleEnv (stateWith fourImages 3) 4).map (fun r => outputs r.trace) =
      some [Pdf.new.addPage] ∧
    Pdf.new.addPage.pages = [[], []] ∧
    (generatePDF sampleEnv (stateWith fourImages 3) 4).map
        (fun r => r.trace.filterMap Event.text) =
      some ["Initializing...", "Images 1-3 of 4", "Images 4-4 of 4", "Building output...",
        "Opening preview...", "Saving file...", "PDF generated successfully",
        "PDF generated successfully!"] ∧
    (0 : Int) ≠ 1 ∧ (0 : Int) ≠ 2 ∧ (0 : Int) ≠ 4 ∧
    ∀ fuel, generatePDF sampleEnv (stateWith fourImages 0) fuel = none := by
  refine ⟨by decide, by decide, by decide, by decide, by decide, by decide, by decide,
    by decide, by decide, ?_⟩
  intro fuel
  exact generatePDF_never_ends sampleEnv (stateWith fourImages 0) (by decide) (by decide)
    (fun _ => rfl) rfl rfl fuel

/-! ## A page size that the library does not know -/

/-- With the page size `zzz`, which the table and the default library do not
know, the run creates its document, announces the first page and fails in
`pdf.addImage`: it ends with `Error generating PDF` and emits no document. -/
theorem generatePDF_unknown_page_size :
    pageSizes unknownPageSize.settings.pageSize = none ∧
    (generatePDF sampleEnv unknownPageSize 4).map (fun r => r.trace.filterMap Event.text) =
      some ["Initializing...", "Images 1-1 of 4", "Error generating PDF"] ∧
    (generatePDF sampleEnv unknownPageSize 4).map (fun r => outputs r.trace) = some [] := by
  refine ⟨by decide, by decide, by decide⟩

/-! ## Progress reports (C9) -/

theorem jsRound_zero_div (n : ℚ) : jsRound ((0 : ℚ) / n * 90) = 0 := by
  simp only [jsRound, zero_div, zero_mul, zero_add]
  norm_num

theorem pageLoop_first_trace (env : Env) (st : State) (pageWidth pageHeight : ℚ)
    (fuel : Nat) (pdf : Pdf) (loop : Loop)
    (hlt : (0 : Int) < (st.uploadedImages.length : Int)) (hc : env.cancelled 0 = false)
    (h : generatePDF.pageLoop env st pageWidth pageHeight fuel 0 0 pdf = some loop) :
    ∃ rest, loop.trace = generatePDF.progress st 0 0 :: rest := by
  cases fuel with
  | zero => simp [generatePDF.pageLoop, hlt] at h
  | succ fuel =>
    rcases pageLoop_succ_cases env st pageWidth pageHeight fuel 0 0 pdf hlt hc
      with ⟨e, he⟩ | ⟨pdf2, hp⟩
    · rw [he] at h
      simp only [Option.some.injEq] at h
      subst h
      exact ⟨[], rfl⟩
    · rw [hp, Option.map_eq_some'] at h
      obtain ⟨r, _, hr⟩ := h
      subst hr
      exact ⟨r.trace, rfl⟩

theorem percentages_start (st : State) (title sub : String) (tail : List Event) :
    percentages ([Event.showInlineLoader, Event.showLoader title sub 3] ++
      (generatePDF.progress st 0 0 :: tail)) = 3 :: 0 :: percentages tail := by
  have := jsRound_zero_div (st.uploadedImages.length : ℚ)
  simp only [List.cons_append, List.nil_append, percentages, generatePDF.progress,
    Int.cast_zero, this]

/-- Every run on a non-empty collection that creates its document and passes
the first check reports 3 and then 0. -/
theorem generatePDF_percentages_start (env : Env) (st : State) (fuel : Nat) (run : Run)
    (hne : st.uploadedImages ≠ []) (hc : env.cancelled 0 = false)
    (hcreate : env.jsPDF.create st.settings.orientation st.settings.pageSize = true)
    (hrun : generatePDF env st fuel = some run) :
    ∃ rest, percentages run.trace = 3 :: 0 :: rest := by
  have hlen : 0 < st.uploadedImages.length := List.length_pos.mpr hne
  have hlen0 : ¬ (st.uploadedImages.length = 0) := by omega
  have hlt : (0 : Int) < (st.uploadedImages.length : Int) := by exact_mod_cast hlen
  unfold generatePDF at hrun
  simp only [hlen0, if_false, hcreate, Bool.true_eq_false] at hrun
  cases hloop : generatePDF.pageLoop env { st with operationCancelled := false }
      (generatePDF.pageGeometry st.settings).1 (generatePDF.pageGeometry st.settings).2
      fuel 0 0 Pdf.new with
  | none => simp [hloop] at hrun
  | some loop =>
    obtain ⟨rest, hrest⟩ := pageLoop_first_trace env { st with operationCancelled := false }
      _ _ fuel Pdf.new loop hlt hc hloop
    simp only [hloop, hrest] at hrun
    split at hrun
    · simp only [Option.some.injEq] at hrun
      subst hrun
      simp only [List.append_assoc, List.cons_append]
      exact ⟨_, percentages_start _ _ _ _⟩
    · split at hrun
      · simp only [Option.some.injEq] at hrun
        subst hrun
        simp only [List.append_assoc, List.cons_append]
        exact ⟨_, percentages_start _ _ _ _⟩
      · split at hrun
        · simp only [Option.some.injEq] at hrun
          subst hrun
          simp only [List.append_assoc, List.cons_append]
          exact ⟨_, percentages_start _ _ _ _⟩
        · simp only [Option.some.injEq] at hrun
          subst hrun
          simp only [List.append_assoc, List.cons_append]
          exact ⟨_, percentages_start _ _ _ _⟩

/-- C9 fails on the code: for one image and one image per page, the run that
is neither cancelled nor failing reports the percentages 3, 0, 92, 95, 98,
100, and the second report is below the first. -/
theorem generatePDF_progress_drops :
    (generatePDF sampleEnv (stateWith [sampleRecord "a" 100 50] 1) 1).map
        (fun r => percentages r.trace) = some [3, 0, 92, 95, 98, 100] ∧
    ¬ List.Chain' (fun a b : Int => a ≤ b) [3, 0, 92, 95, 98, 100] := by
  constructor
  · simp [generatePDF, generatePDF.pageLoop, stateWith, stateOf, State.initial, sampleEnv,
      processImagesForPage, addImageToPDF, generatePDF.progress, percentages, slice, jsRound,
      pageSizes, CONFIG.defaultSettings, Pdf.new, Pdf.addImage]
    norm_num
  · simp

/-! ## Reorder with an index outside the collection (C11) -/

/-- C11 fails on the code: with `oldIndex = 3` on three records nothing is
removed and `undefined` is inserted in front, so the collection grows to four
entries; with `oldIndex = -1` the last record is moved to the front. -/
theorem onEnd_out_of_range_mutates :
    ¬ ((3 : Int) < ((stateOf threeImages).uploadedImages.length : Int)) ∧
    (onEnd (stateOf threeImages) 3 0).uploadedImages =
      none :: (stateOf threeImages).uploadedImages ∧
    (onEnd (stateOf threeImages) 3 0).uploadedImages.length = 4 ∧
    ¬ ((0 : Int) ≤ -1) ∧
    (onEnd (stateOf threeImages) (-1) 0).uploadedImages =
      [some (sampleRecord "c" 100 50), some (sampleRecord "a" 100 50),
       some (sampleRecord "b" 100 50)] := by
  refine ⟨by decide, by decide, by decide, by decide, by decide⟩

/-! ## Deleting a record (C12) -/

theorem number_index_valid (q : ℚ) (n : Nat)
    (h : ¬ (¬ q.isInt ∨ q < 0 ∨ q ≥ (n : ℚ))) :
    ∃ i : Nat, i < n ∧ q = (i : ℚ) ∧ q.num = (i : Int) := by
  simp only [not_or, not_not, not_lt, ge_iff_le, not_le] at h
  obtain ⟨hint, h0, hlt⟩ := h
  have hden : q.den = 1 := by
    simpa [Rat.isInt] using hint
  have hq : ((q.num : Int) : ℚ) = q := Rat.coe_int_num_of_den_eq_one hden
  have hnum0 : 0 ≤ q.num := by
    have : (0 : ℚ) ≤ (q.num : ℚ) := by rw [hq]; exact h0
    exact_mod_cast this
  obtain ⟨i, hi⟩ := Int.eq_ofNat_of_zero_le hnum0
  refine ⟨i, ?_, ?_, hi⟩
  · have : ((i : Int) : ℚ) < (n : ℚ) := by rw [← hi, hq]; exact hlt
    exact_mod_cast this
  · rw [← hq, hi]; norm_cast

theorem natCast_index_guard (i n : Nat) (h : i < n) :
    ¬ (¬ ((i : ℚ)).isInt ∨ (i : ℚ) < 0 ∨ (i : ℚ) ≥ (n : ℚ)) := by
  have h1 : ((i : ℚ)).isInt = true := by simp [Rat.isInt]
  have h2 : ¬ ((i : ℚ) < 0) := not_lt.mpr (Nat.cast_nonneg _)
  have h3 : ¬ ((i : ℚ) ≥ (n : ℚ)) := by
    rw [ge_iff_le, not_le]; exact_mod_cast h
  simp [h1, h2, h3]

/-- C12: `deleteImage` leaves the state as it is when the index is not an
integer in `[0, length)` and when the user declines; for a valid index and a
confirmation it removes exactly the record at that index, so that the length
drops by one, the records before it keep their index and those after it move
down by one. -/
theorem deleteImage_spec (st : State) (index : JsValue) (confirm : Bool) :
    ((¬ ∃ i : Nat, i < st.uploadedImages.length ∧ index = .number (i : ℚ)) →
      deleteImage st index confirm = st) ∧
    deleteImage st index false = st ∧
    (∀ i : Nat, i < st.uploadedImages.length → index = .number (i : ℚ) →
      deleteImage st index true =
        { st with uploadedImages := st.uploadedImages.eraseIdx i } ∧
      (deleteImage st index true).uploadedImages.length + 1 = st.uploadedImages.length ∧
      ∀ j : Nat, (deleteImage st index true).uploadedImages[j]? =
        if j < i then st.uploadedImages[j]? else st.uploadedImages[j + 1]?) := by
  refine ⟨?_, ?_, ?_⟩
  · intro hno
    cases index with
    | number q =>
      by_cases hg : ¬ q.isInt ∨ q < 0 ∨ q ≥ (st.uploadedImages.length : ℚ)
      · simp only [deleteImage, hg, if_true]
      · obtain ⟨i, hi, hq, _⟩ := number_index_valid q _ hg
        exact absurd ⟨i, hi, by rw [hq]⟩ hno
    | _ => rfl
  · cases index with
    | number q =>
      by_cases hg : ¬ q.isInt ∨ q < 0 ∨ q ≥ (st.uploadedImages.length : ℚ)
      · simp only [deleteImage, hg, if_true]
      · simp only [deleteImage, hg, if_false, Bool.false_eq_true]
    | _ => rfl
  · intro i hi hidx
    subst hidx
    have hg := natCast_index_guard i st.uploadedImages.length hi
    have hnum : ((i : ℚ)).num = (i : Int) := by simp
    have hdel : deleteImage st (.number (i : ℚ)) true =
        { st with uploadedImages := st.uploadedImages.eraseIdx i } := by
      simp only [deleteImage, hg, if_false, if_true, hnum, splice_remove_one _ i hi]
    rw [hdel]
    refine ⟨rfl, ?_, ?_⟩
    · simp only [List.length_eraseIdx_of_lt hi]; omega
    · intro j
      exact List.getElem?_eraseIdx _ i j

/-- C12 at three records: deleting the middle one. -/
theorem deleteImage_spec_witness :
    (1 < (stateOf threeImages).uploadedImages.length) ∧
    deleteImage (stateOf threeImages) (.number ((1 : Nat) : ℚ)) true =
      { stateOf threeImages with
        uploadedImages := (stateOf threeImages).uploadedImages.eraseIdx 1 } ∧
    (¬ ∃ i : Nat, i < (stateOf threeImages).uploadedImages.length ∧
      JsValue.number (3 / 2) = .number (i : ℚ)) ∧
    deleteImage (stateOf threeImages) (.number (3 / 2)) true = stateOf threeImages := by
  have hno : ¬ ∃ i : Nat, i < (stateOf threeImages).uploadedImages.length ∧
      JsValue.number (3 / 2) = .number (i : ℚ) := by
    rintro ⟨i, _, h⟩
    have h2 : ((3 / 2 : ℚ)) = (i : ℚ) := by injection h
    have h3 := congrArg Rat.den h2
    norm_num at h3
  exact ⟨by decide,
    ((deleteImage_spec (stateOf threeImages) (.number ((1 : Nat) : ℚ)) true).2.2 1
      (by decide) rfl).1,
    hno,
    (deleteImage_spec (stateOf threeImages) (.number (3 / 2)) true).1 hno⟩

/-! ## Rotation and the size of an edited record (C13, C14, C17) -/

theorem tmod_360 (a : Int) :
    Int.tmod a 360 = if 0 ≤ a then a % 360 else -((-a) % 360) := by
  by_cases h : 0 ≤ a
  · simp only [h, if_true]
    exact Int.tmod_eq_emod h (by decide)
  · simp only [h, if_false]
    have hc : 0 ≤ -a := by omega
    have h1 : Int.tdiv (-a) 360 = (-a) / 360 := Int.tdiv_eq_ediv hc (by decide)
    have h2 : Int.tdiv a 360 = -(Int.tdiv (-a) 360) := by
      rw [Int.neg_tdiv]; simp
    rw [Int.tmod_def, h2, h1]
    omega

/-- The two remainders of `applyImageEdit` together are the remainder in
`[0, 360)`. -/
theorem tmod_normalise (a : Int) : Int.tmod (Int.tmod a 360 + 360) 360 = a % 360 := by
  have h := tmod_360 a
  have h2 := tmod_360 (Int.tmod a 360 + 360)
  rw [h2, h]
  split <;> split <;> omega

/-- The remainder and the correction of `rotateImage` together are the
remainder in `[0, 360)`. -/
theorem rotate_normalise (a : Int) :
    (if Int.tmod a 360 < 0 then Int.tmod a 360 + 360 else Int.tmod a 360) = a % 360 := by
  rw [tmod_360 a]
  split <;> split <;> omega

/-- What `applyImageEdit` writes when the edited entry is a record whose image
loads. -/
theorem applyImageEdit_ok (env : Env) (toDataURL : String → Int → Bool → Bool → ℚ → String)
    (st : State) (i : Nat) (r : Record) (w h : Nat)
    (hidx : st.currentEditIndex = (i : Int))
    (hrec : st.uploadedImages[i]? = some (some r))
    (hdec : env.decode (sanitizeDataUrl (if r.src ≠ "" then r.src else r.originalSrc)) =
      some (w, h)) :
    applyImageEdit env toDataURL st =
      closeEditModal { st with
        uploadedImages := st.uploadedImages.set i (some
          { r with
            src := sanitizeDataUrl (toDataURL
              (sanitizeDataUrl (if r.src ≠ "" then r.src else r.originalSrc))
              st.currentRotation st.currentFlipH st.currentFlipV st.settings.imageQuality)
            width := if st.currentRotation % 360 = 90 ∨ st.currentRotation % 360 = 270
              then h else w
            height := if st.currentRotation % 360 = 90 ∨ st.currentRotation % 360 = 270
              then w else h
            rotation := st.currentRotation
            flipH := st.currentFlipH
            flipV := st.currentFlipV }) } := by
  have h1 : ¬ ((i : Int) = -1) := by omega
  have h2 : (0 : Int) ≤ (i : Int) := by omega
  unfold applyImageEdit
  simp only [hidx, h1, if_false, h2, if_true, Int.toNat_ofNat, hrec, Option.join,
    Option.some_bind, id, hdec, tmod_normalise]

/-- C13: when the edited record's image has `w × h` pixels and the working
rotation is a multiple of 90, `applyImageEdit` stores the size `(h, w)` if the
rotation normalised into `[0, 360)` is 90 or 270 and `(w, h)` if it is 0 or
180, whatever the two flips are; one of the four cases always applies. -/
theorem applyImageEdit_dimensions (env : Env)
    (toDataURL : String → Int → Bool → Bool → ℚ → String)
    (st : State) (i : Nat) (r : Record) (w h : Nat) (flipH flipV : Bool)
    (hidx : st.currentEditIndex = (i : Int))
    (hrec : st.uploadedImages[i]? = some (some r))
    (hdec : env.decode (sanitizeDataUrl (if r.src ≠ "" then r.src else r.originalSrc)) =
      some (w, h))
    (hrot : (90 : Int) ∣ st.currentRotation) :
    ∃ edited : Record,
      (applyImageEdit env toDataURL
        { st with currentFlipH := flipH, currentFlipV := flipV }).uploadedImages[i]? =
        some (some edited) ∧
      ((st.currentRotation % 360 = 90 ∨ st.currentRotation % 360 = 270) →
        edited.width = h ∧ edited.height = w) ∧
      ((st.currentRotation % 360 = 0 ∨ st.currentRotation % 360 = 180) →
        edited.width = w ∧ edited.height = h) ∧
      (st.currentRotation % 360 = 0 ∨ st.currentRotation % 360 = 90 ∨
        st.currentRotation % 360 = 180 ∨ st.currentRotation % 360 = 270) := by
  have hlen : i < st.uploadedImages.length := by
    by_contra hge
    rw [List.getElem?_eq_none (by omega)] at hrec
    exact absurd hrec (by simp)
  have hap := applyImageEdit_ok env toDataURL
    { st with currentFlipH := flipH, currentFlipV := flipV } i r w h hidx hrec hdec
  refine ⟨{ r with
      src := sanitizeDataUrl (toDataURL
        (sanitizeDataUrl (if r.src ≠ "" then r.src else r.originalSrc))
        st.currentRotation flipH flipV st.settings.imageQuality)
      width := if st.currentRotation % 360 = 90 ∨ st.currentRotation % 360 = 270 then h else w
      height := if st.currentRotation % 360 = 90 ∨ st.currentRotation % 360 = 270 then w else h
      rotation := st.currentRotation
      flipH := flipH
      flipV := flipV }, ?_, ?_, ?_, ?_⟩
  · rw [hap]
    simp only [closeEditModal]
    exact List.getElem?_set_self hlen
  · intro h9
    simp only [h9, if_true, and_self]
  · intro h0
    have hne : ¬ (st.currentRotation % 360 = 90 ∨ st.currentRotation % 360 = 270) := by omega
    simp only [hne, if_false, and_self]
  · obtain ⟨c, hc⟩ := hrot
    omega

/-- C13 at an image of 100 × 50 pixels and the rotation `-90` with a
horizontal flip: the record becomes 50 × 100. -/
theorem applyImageEdit_dimensions_witness :
    ((90 : Int) ∣ -90) ∧ ((-90 : Int) % 360 = 270) ∧
    ∃ edited : Record,
      (applyImageEdit sampleEnv sampleToDataURL
        { { stateOf [sampleRecord "a" 100 50] with
            currentEditIndex := 0, currentRotation := -90 } with
          currentFlipH := true, currentFlipV := false }).uploadedImages[0]? =
        some (some edited) ∧
      edited.width = 50 ∧ edited.height = 100 := by
  obtain ⟨edited, h1, h2, _, _⟩ := applyImageEdit_dimensions sampleEnv sampleToDataURL
    { stateOf [sampleRecord "a" 100 50] with currentEditIndex := 0, currentRotation := -90 }
    0 (sampleRecord "a" 100 50) 100 50 true false rfl rfl rfl (by decide)
  exact ⟨by decide, by decide, edited, h1, h2 (Or.inr (by decide))⟩

/-! ## The rotation invariant of edit sessions (C14) -/

theorem normalRotation_rotate (r d : Int) (hr : normalRotation r) (hd : d = 90 ∨ d = -90) :
    normalRotation ((r + d) % 360) := by
  unfold normalRotation at *
  rcases hr with h | h | h | h <;> rcases hd with h2 | h2 <;> subst h <;> subst h2 <;> decide

/-- One operation of an edit session keeps every rotation in the state among
0, 90, 180 and 270. -/
theorem editStep_rotations (env : Env) (toDataURL : String → Int → Bool → Bool → ℚ → String)
    (st : State) (a : EditAction)
    (hcur : normalRotation st.currentRotation)
    (hrec : ∀ r, some r ∈ st.uploadedImages → normalRotation r.rotation)
    (ha : ∀ d, a = .rotateImage d → d = 90 ∨ d = -90) :
    normalRotation (EditAction.step env toDataURL st a).currentRotation ∧
    ∀ r, some r ∈ (EditAction.step env toDataURL st a).uploadedImages →
      normalRotation r.rotation := by
  cases a with
  | openEditModal index =>
    simp only [EditAction.step, openEditModal]
    cases index with
    | number q =>
      simp only
      split
      · exact ⟨hcur, hrec⟩
      · split
        · exact ⟨hcur, hrec⟩
        · rename_i imageData hget
          refine ⟨?_, hrec⟩
          apply hrec
          cases hq : st.uploadedImages[q.num.toNat]? with
          | none => simp [hq] at hget
          | some e =>
            simp only [hq, Option.join, Option.some_bind, id] at hget
            subst hget
            exact List.getElem?_mem hq
    | _ => exact ⟨hcur, hrec⟩
  | rotateImage d =>
    simp only [EditAction.step, rotateImage]
    refine ⟨?_, hrec⟩
    rw [rotate_normalise]
    exact normalRotation_rotate _ d hcur (ha d rfl)
  | flipImage direction =>
    simp only [EditAction.step, flipImage]
    split <;> exact ⟨hcur, hrec⟩
  | applyImageEdit =>
    simp only [EditAction.step, applyImageEdit]
    split
    · exact ⟨hcur, hrec⟩
    · split
      · exact ⟨hcur, hrec⟩
      · split
        · exact ⟨hcur, hrec⟩
        · simp only [closeEditModal]
          refine ⟨Or.inl rfl, ?_⟩
          intro r hr
          rcases List.mem_or_eq_of_mem_set hr with h | h
          · exact hrec r h
          · simp only [Option.some.injEq] at h
            subst h
            exact hcur
  | closeEditModal =>
    simp only [EditAction.step, closeEditModal]
    exact ⟨Or.inl rfl, hrec⟩

theorem editRun_rotations_aux (env : Env)
    (toDataURL : String → Int → Bool → Bool → ℚ → String) (actions : List EditAction) :
    ∀ st : State, normalRotation st.currentRotation →
      (∀ r, some r ∈ st.uploadedImages → normalRotation r.rotation) →
      (∀ d, EditAction.rotateImage d ∈ actions → d = 90 ∨ d = -90) →
      normalRotation (editRun env toDataURL st actions).currentRotation ∧
      ∀ r, some r ∈ (editRun env toDataURL st actions).uploadedImages →
        normalRotation r.rotation := by
  induction actions with
  | nil => intro st hcur hrec _; exact ⟨hcur, hrec⟩
  | cons a rest ih =>
    intro st hcur hrec hrot
    obtain ⟨h1, h2⟩ := editStep_rotations env toDataURL st a hcur hrec
      (fun d hd => hrot d (by rw [hd]; exact List.mem_cons_self _ _))
    exact ih _ h1 h2 (fun d hd => hrot d (List.mem_cons_of_mem _ hd))

/-- C14: from a state whose working rotation and record rotations are all 0,
every sequence of `openEditModal`, `rotateImage(90)`, `rotateImage(-90)`,
`flipImage`, `applyImageEdit` and `closeEditModal` leads to a state in which
the working rotation and the rotation of every record are 0, 90, 180 or 270;
and `rotateImage(d)` turns the working rotation `r` into the mathematical
`(r + d) mod 360`. -/
theorem editRun_rotations (env : Env) (toDataURL : String → Int → Bool → Bool → ℚ → String)
    (st : State) (actions : List EditAction)
    (hcur : st.currentRotation = 0)
    (hrec : ∀ r, some r ∈ st.uploadedImages → r.rotation = 0)
    (hrot : ∀ d, EditAction.rotateImage d ∈ actions → d = 90 ∨ d = -90) :
    (normalRotation (editRun env toDataURL st actions).currentRotation ∧
      ∀ r, some r ∈ (editRun env toDataURL st actions).uploadedImages →
        normalRotation r.rotation) ∧
    ∀ (s : State) (d : Int),
      (rotateImage s d).currentRotation = (s.currentRotation + d) % 360 ∧
      0 ≤ (rotateImage s d).currentRotation ∧ (rotateImage s d).currentRotation < 360 := by
  refine ⟨editRun_rotations_aux env toDataURL actions st (Or.inl hcur)
    (fun r hr => Or.inl (hrec r hr)) hrot, ?_⟩
  intro s d
  have h : (rotateImage s d).currentRotation = (s.currentRotation + d) % 360 := by
    simp only [rotateImage]
    exact rotate_normalise _
  rw [h]
  refine ⟨rfl, ?_, ?_⟩ <;> omega

/-- C14 at one uploaded image: open, rotate left, apply, open again, rotate
left twice. -/
theorem editRun_rotations_witness :
    (stateOf [sampleRecord "a" 100 50]).currentRotation = 0 ∧
    (normalRotation (editRun editEnv sampleToDataURL (stateOf [sampleRecord "a" 100 50])
        [.openEditModal (.number 0), .rotateImage (-90), .applyImageEdit,
         .openEditModal (.number 0), .rotateImage (-90), .rotateImage (-90)]).currentRotation ∧
      ∀ r, some r ∈ (editRun editEnv sampleToDataURL (stateOf [sampleRecord "a" 100 50])
        [.openEditModal (.number 0), .rotateImage (-90), .applyImageEdit,
         .openEditModal (.number 0), .rotateImage (-90), .rotateImage (-90)]).uploadedImages →
        normalRotation r.rotation) :=
  ⟨rfl,
    (editRun_rotations editEnv sampleToDataURL (stateOf [sampleRecord "a" 100 50])
      [.openEditModal (.number 0), .rotateImage (-90), .applyImageEdit,
       .openEditModal (.number 0), .rotateImage (-90), .rotateImage (-90)]
      rfl
      (by
        intro r hr
        simp only [stateOf, State.initial, List.map_cons, List.map_nil, List.mem_singleton,
          Option.some.injEq] at hr
        subst hr
        rfl)
      (by
        intro d hd
        simp only [List.mem_cons, EditAction.rotateImage.injEq, List.mem_singleton,
          List.not_mem_nil, or_false, false_or, reduceCtorEq] at hd
        omega)).1⟩

/-! ## Opening and applying without a change (C17) -/

/-- C17 fails on the code: the record `a`, uploaded with 100 × 50 pixels and
rotated once (so that it has 50 × 100 pixels and the rotation 90), is opened
and applied without any rotation or flip in between, and its width and height
come out swapped, 100 × 50, while the picture itself has been turned once
more. -/
theorem applyImageEdit_reopened_swaps :
    editedOnce.uploadedImages.map
        (Option.map (fun r => (r.width, r.height, r.rotation, r.flipH, r.flipV))) =
      [some (50, 100, 90, false, false)] ∧
    editedOnce.uploadedImages.map (Option.map (fun r => editEnv.decode r.src)) =
      [some (some (50, 100))] ∧
    (applyImageEdit editEnv sampleToDataURL
        (openEditModal editedOnce (.number 0))).uploadedImages.map
        (Option.map (fun r => (r.width, r.height, r.rotation, r.flipH, r.flipV))) =
      [some (100, 50, 90, false, false)] := by
  refine ⟨by decide, by decide, by decide⟩

/-! ## Loading the settings (C15) -/

/-- C15: at startup (`state.settings` are the defaults) `loadSettings` ends
without an exception for every persisted entry and every behaviour of
`JSON.parse`; a missing entry and an entry that does not parse leave the
defaults; and for a non-empty entry that parses to an object each of the six
keys has the value of the object when the object has the key and the default
otherwise. -/
theorem loadSettings_startup (parse : String → Except String Parsed) (saved : Option String) :
    (∃ s, loadSettings parse saved CONFIG.defaultSettings.toObject = .ok s) ∧
    (saved = none →
      loadSettings parse saved CONFIG.defaultSettings.toObject =
        .ok CONFIG.defaultSettings.toObject) ∧
    (∀ text e, saved = some text → parse text = .error e →
      loadSettings parse saved CONFIG.defaultSettings.toObject =
        .ok CONFIG.defaultSettings.toObject) ∧
    (∀ text get, saved = some text → text ≠ "" → parse text = .ok (.object get) →
      loadSettings parse saved CONFIG.defaultSettings.toObject =
        .ok { pageSize := (get "pageSize").getD (.string "a4")
              orientation := (get "orientation").getD (.string "portrait")
              imageQuality := (get "imageQuality").getD (.number (92 / 100))
              margin := (get "margin").getD (.number 20)
              imagesPerPage := (get "imagesPerPage").getD (.number 1)
              filename := (get "filename").getD (.string "generated") }) := by
  refine ⟨?_, ?_, ?_, ?_⟩
  · cases saved with
    | none => exact ⟨_, rfl⟩
    | some text =>
      simp only [loadSettings]
      split
      · exact ⟨_, rfl⟩
      · split <;> exact ⟨_, rfl⟩
  · intro h
    subst h
    rfl
  · intro text e h hp
    subst h
    simp only [loadSettings, hp]
    split <;> rfl
  · intro text get h hne hp
    subst h
    simp only [loadSettings, hne, if_false, hp, Settings.toObject, CONFIG.defaultSettings,
      Int.cast_one]

/-- C15 at the text of an object that holds only `imagesPerPage`. -/
theorem loadSettings_startup_witness :
    ("\x7b\"imagesPerPage\":3\x7d" ≠ "") ∧
    loadSettings sampleParse (some "\x7b\"imagesPerPage\":3\x7d")
        CONFIG.defaultSettings.toObject =
      .ok { pageSize := .string "a4"
            orientation := .string "portrait"
            imageQuality := .number (92 / 100)
            margin := .number 20
            imagesPerPage := .number 3
            filename := .string "generated" } :=
  ⟨by decide,
    (loadSettings_startup sampleParse (some "\x7b\"imagesPerPage\":3\x7d")).2.2.2
      "\x7b\"imagesPerPage\":3\x7d"
      (fun key => if key = "imagesPerPage" then some (.number 3) else none)
      rfl (by decide) rfl⟩

/-! ## The constraints on the settings (C16) -/

theorem defaultSettings_valid : CONFIG.defaultSettings.toObject.Valid := by
  refine ⟨Or.inl rfl, Or.inl rfl, ⟨92 / 100, rfl, by norm_num, by norm_num⟩,
    ⟨20, rfl, by norm_num⟩, Or.inl ?_, ⟨"generated", rfl, by decide⟩⟩
  simp [Settings.toObject, CONFIG.defaultSettings]

/-- C16 as stated fails: loading a persisted object with `imagesPerPage` 3
leaves settings whose `imagesPerPage` is none of 1, 2 and 4. -/
theorem settingsRun_load_invalid :
    (settingsRun sampleParse (fun _ => none) (fun _ => none)
      [.loadSettings (some "\x7b\"imagesPerPage\":3\x7d")]).imagesPerPage = .number 3 ∧
    ¬ validImagesPerPage (.number 3) ∧
    ¬ (settingsRun sampleParse (fun _ => none) (fun _ => none)
      [.loadSettings (some "\x7b\"imagesPerPage\":3\x7d")]).Valid := by
  have h1 : (settingsRun sampleParse (fun _ => none) (fun _ => none)
      [.loadSettings (some "\x7b\"imagesPerPage\":3\x7d")]).imagesPerPage = .number 3 := by
    simp [settingsRun, SettingsAction.step, loadSettings, sampleParse]
  have h2 : ¬ validImagesPerPage (.number 3) := by
    unfold validImagesPerPage
    simp only [JsValue.number.injEq]
    norm_num
  refine ⟨h1, h2, ?_⟩
  intro hv
  have := hv.2.2.2.2.1
  rw [h1] at this
  exact h2 this

theorem loadSettings_cases (parse : String → Except String Parsed) (saved : Option String)
    (settings : SettingsObject) :
    loadSettings parse saved settings = .ok settings ∨
    loadSettings parse saved settings = .ok CONFIG.defaultSettings.toObject ∨
    ∃ text get, saved = some text ∧ parse text = .ok (.object get) ∧
      loadSettings parse saved settings =
        .ok { pageSize := (get "pageSize").getD CONFIG.defaultSettings.toObject.pageSize
              orientation :=
                (get "orientation").getD CONFIG.defaultSettings.toObject.orientation
              imageQuality :=
                (get "imageQuality").getD CONFIG.defaultSettings.toObject.imageQuality
              margin := (get "margin").getD CONFIG.defaultSettings.toObject.margin
              imagesPerPage :=
                (get "imagesPerPage").getD CONFIG.defaultSettings.toObject.imagesPerPage
              filename := (get "filename").getD CONFIG.defaultSettings.toObject.filename } := by
  cases saved with
  | none => exact Or.inl rfl
  | some text =>
    by_cases ht : text = ""
    · left
      simp only [loadSettings, ht, if_true]
    · cases hp : parse text with
      | error e =>
        left
        simp only [loadSettings, ht, if_false, hp]
      | ok parsed =>
        cases parsed with
        | primitive v =>
          right; left
          simp only [loadSettings, ht, if_false, hp]
        | object get =>
          right; right
          exact ⟨text, get, rfl, hp, by simp only [loadSettings, ht, if_false, hp]⟩

theorem filename_nonempty (t : String) :
    (if t ≠ "" then t else CONFIG.defaultSettings.filename) ≠ "" := by
  by_cases h : t ≠ ""
  · rw [if_pos h]; exact h
  · rw [if_neg h]; decide

theorem getD_valid (P : JsValue → Prop) (o : Option JsValue) (d : JsValue) (hd : P d)
    (ho : ∀ v, o = some v → P v) : P (o.getD d) := by
  cases o with
  | none => exact hd
  | some v => exact ho v rfl

theorem settingsStep_valid (parse : String → Except String Parsed)
    (parseFloat : String → Option ℚ) (parseInt : String → Option Int)
    (settings : SettingsObject) (a : SettingsAction)
    (hs : settings.Valid) (ha : a.inputsValid parse parseFloat parseInt) :
    (SettingsAction.step parse parseFloat parseInt settings a).Valid := by
  obtain ⟨d1, d2, d3, d4, d5, d6⟩ := defaultSettings_valid
  cases a with
  | loadSettings saved =>
    simp only [SettingsAction.step]
    rcases loadSettings_cases parse saved settings with h | h | ⟨text, get, hsaved, hp, h⟩
    · rw [h]; exact hs
    · rw [h]; exact defaultSettings_valid
    · rw [h]
      obtain ⟨k1, k2, k3, k4, k5, k6⟩ := ha text get hsaved hp
      exact ⟨getD_valid _ _ _ d1 k1, getD_valid _ _ _ d2 k2, getD_valid _ _ _ d3 k3,
        getD_valid _ _ _ d4 k4, getD_valid _ _ _ d5 k5, getD_valid _ _ _ d6 k6⟩
  | saveSettingsHandler form =>
    obtain ⟨h1, h2, h3, h4, h5⟩ := ha
    refine ⟨h1, h2, ?_, ?_, ?_, ?_⟩
    · show validImageQuality (.number (match parseFloat form.imageQuality with
        | none => CONFIG.defaultSettings.imageQuality
        | some q => q))
      cases hq : parseFloat form.imageQuality with
      | none => exact d3
      | some q => exact ⟨q, rfl, h3 q hq⟩
    · show validMargin (.number (match parseInt form.margin with
        | none => CONFIG.defaultSettings.margin
        | some m => (m : ℚ)))
      cases hm : parseInt form.margin with
      | none => exact d4
      | some m => exact ⟨(m : ℚ), rfl, by exact_mod_cast h4 m hm⟩
    · show validImagesPerPage (.number ((match parseInt form.imagesPerPage with
        | none => CONFIG.defaultSettings.imagesPerPage
        | some k => k : Int) : ℚ))
      cases hk : parseInt form.imagesPerPage with
      | none => exact d5
      | some k =>
        rcases h5 k hk with h | h | h <;> subst h
        · exact Or.inl (by simp)
        · exact Or.inr (Or.inl (by simp))
        · exact Or.inr (Or.inr (by simp))
    · show validFilename (.string
        (if (if form.filename ≠ "" then form.filename else "generated").trim ≠ "" then
          (if form.filename ≠ "" then form.filename else "generated").trim
        else CONFIG.defaultSettings.filename))
      exact ⟨_, rfl, filename_nonempty _⟩
  | resetSettingsHandler => exact defaultSettings_valid

/-- C16, amended: starting from the defaults, every sequence of `loadSettings`,
`saveSettingsHandler` and `resetSettingsHandler` whose inputs satisfy the
constraints (a persisted object holds a valid value at each settings key it
has; the form holds a listed page size and orientation, and each numeric field
either does not parse or parses to a value within its constraint) leads to
settings that satisfy the constraints of the data model. -/
theorem settingsRun_valid (parse : String → Except String Parsed)
    (parseFloat : String → Option ℚ) (parseInt : String → Option Int)
    (actions : List SettingsAction)
    (hin : ∀ a ∈ actions, a.inputsValid parse parseFloat parseInt) :
    (settingsRun parse parseFloat parseInt actions).Valid := by
  unfold settingsRun
  have key : ∀ (acts : List SettingsAction) (s : SettingsObject), s.Valid →
      (∀ a ∈ acts, a.inputsValid parse parseFloat parseInt) →
      (acts.foldl (SettingsAction.step parse parseFloat parseInt) s).Valid := by
    intro acts
    induction acts with
    | nil => intro s hs _; exact hs
    | cons a rest ih =>
      intro s hs hall
      exact ih _ (settingsStep_valid parse parseFloat parseInt s a hs
          (hall a (List.mem_cons_self _ _)))
        (fun b hb => hall b (List.mem_cons_of_mem _ hb))
  exact key actions _ defaultSettings_valid hin

/-- C16, amended, at a save of a landscape letter page with a blank filename
followed by a reset and a load of a missing entry. -/
theorem settingsRun_valid_witness :
    (∀ a ∈ [SettingsAction.saveSettingsHandler
              { pageSize := "letter", orientation := "landscape", imageQuality := "x",
                margin := "x", imagesPerPage := "x", filename := "" },
            SettingsAction.resetSettingsHandler, SettingsAction.loadSettings none],
      a.inputsValid sampleParse (fun _ => none) (fun _ => none)) ∧
    (settingsRun sampleParse (fun _ => none) (fun _ => none)
      [SettingsAction.saveSettingsHandler
          { pageSize := "letter", orientation := "landscape", imageQuality := "x",
            margin := "x", imagesPerPage := "x", filename := "" },
        SettingsAction.resetSettingsHandler, SettingsAction.loadSettings none]).Valid := by
  have hin : ∀ a ∈ [SettingsAction.saveSettingsHandler
        { pageSize := "letter", orientation := "landscape", imageQuality := "x",
          margin := "x", imagesPerPage := "x", filename := "" },
      SettingsAction.resetSettingsHandler, SettingsAction.loadSettings none],
      a.inputsValid sampleParse (fun _ => none) (fun _ => none) := by
    intro a ha
    simp only [List.mem_cons, List.mem_singleton, List.not_mem_nil, or_false] at ha
    rcases ha with h | h | h <;> subst h
    · refine ⟨Or.inr (Or.inl rfl), Or.inr rfl, ?_, ?_, ?_⟩ <;> intro _ h <;> simp at h
    · trivial
    · intro text get h _
      simp at h
  exact ⟨hin, settingsRun_valid sampleParse (fun _ => none) (fun _ => none) _ hin⟩

end ImageToPdf
